import Mathlib

/-!
# Verification of the surgefx synthetic-data generators

Shallow embedding of the transaction/spending-profile generator
(`generate_transaction_csv.py`) and the offer generator
(`generate_dummy_data.py`).

Conventions of the embedding:
* Python floats are modelled as exact rationals (`ℚ`); `round(x, 2)` is
  modelled by `round2` below.
* Calls to the random library (`random.uniform`, `random.randint`,
  `random.random`, `random.choice`, `random.normalvariate`) are modelled as
  explicit draw parameters; the range guaranteed by the library call becomes a
  hypothesis of the theorems.
* `datetime.date`/`datetime.datetime` values are modelled by the `Date`
  structure (proleptic Gregorian calendar, as implemented by the `datetime`
  module); `timedelta(days = k)` addition is `Date.addDays k`, and date
  comparison is comparison of the day ordinal `Date.toN`.
* Unbounded Python `while` loops are modelled with an explicit fuel
  parameter; the correctness lemmas show that with sufficient fuel the loop
  has provably reached its exit condition, so the fuel is not observable.
-/

/-- `round(x, 2)` of Python, on exact rationals: round to the nearest
multiple of `1/100` (tie behaviour is irrelevant to every property proved
below, which only uses `|round2 x - x| ≤ 1/200`). -/
def round2 (x : ℚ) : ℚ := (round (x * 100) : ℤ) / 100

/-! ## The calendar (model of `datetime.date` / `datetime.datetime`) -/

/-- A calendar date, proleptic Gregorian (year `0` is a leap year, as in the
arithmetic of the `datetime` module extended below year 1; only the ordering and
day-arithmetic structure matter). -/
structure Date where
  y : ℕ
  m : ℕ
  d : ℕ
  deriving DecidableEq, Repr

/-- Gregorian leap-year rule. -/
def isLeap (y : ℕ) : Bool := y % 4 == 0 && (y % 100 != 0 || y % 400 == 0)

/-- Number of days of month `m` (1-based) in year `y`; months outside
`[1, 12]` are junk values never reached from valid dates. -/
def monthLen (y : ℕ) (m : ℕ) : ℕ :=
  match m with
  | 1 => 31
  | 2 => if isLeap y then 29 else 28
  | 3 => 31
  | 4 => 30
  | 5 => 31
  | 6 => 30
  | 7 => 31
  | 8 => 31
  | 9 => 30
  | 10 => 31
  | 11 => 30
  | 12 => 31
  | _ => 30

/-- A structurally valid calendar date. -/
def Date.Valid (c : Date) : Prop :=
  1 ≤ c.m ∧ c.m ≤ 12 ∧ 1 ≤ c.d ∧ c.d ≤ monthLen c.y c.m

instance (c : Date) : Decidable c.Valid := by
  unfold Date.Valid; infer_instance

/-- First day of the month after the month of `c` (the `replace(...)` expression of
the month-rollover branch of the source). -/
def firstOfNextMonth (c : Date) : Date :=
  if c.m = 12 then ⟨c.y + 1, 1, 1⟩ else ⟨c.y, c.m + 1, 1⟩

/-- The day after `c` (`c + timedelta(days=1)`). -/
def nextDay (c : Date) : Date :=
  if c.d < monthLen c.y c.m then ⟨c.y, c.m, c.d + 1⟩ else firstOfNextMonth c

/-- `c + timedelta(days=k)`. -/
def addDays (k : ℕ) (c : Date) : Date :=
  match k with
  | 0 => c
  | k + 1 => addDays k (nextDay c)

/-- Days of year `y` that precede month `m`. -/
def daysBefore (y : ℕ) (m : ℕ) : ℕ :=
  match m with
  | 0 => 0
  | 1 => 0
  | m + 2 => daysBefore y (m + 1) + monthLen y (m + 1)

/-- Length of year `y`. -/
def daysInYear (y : ℕ) : ℕ := if isLeap y then 366 else 365

/-- Days that precede year `y` (counting from year 0). -/
def yearDays (y : ℕ) : ℕ :=
  match y with
  | 0 => 0
  | y + 1 => yearDays y + daysInYear y

/-- Day ordinal of a date: dates compare (as in `datetime`) by this number,
and adding a day adds one to it. -/
def Date.toN (c : Date) : ℕ := yearDays c.y + daysBefore c.y c.m + c.d

instance : LE Date := ⟨fun a b => a.toN ≤ b.toN⟩

instance : LT Date := ⟨fun a b => a.toN < b.toN⟩

instance (a b : Date) : Decidable (a ≤ b) := by
  change Decidable (a.toN ≤ b.toN); infer_instance

instance (a b : Date) : Decidable (a < b) := by
  change Decidable (a.toN < b.toN); infer_instance

/-- The date of the recurring charge in the month after the month of `c`. -/
def targetOf (c : Date) (t : ℕ) : Date :=
  Date.mk (firstOfNextMonth c).y (firstOfNextMonth c).m t

/-! ## The recurring-charge scheduling loops
(`generate_recurring_transactions`, lines 331-380 of the source) -/

/-- `while current_date.day > day_of_month: current_date += timedelta(days=1)`. -/
def advanceGT (fuel : ℕ) (t : ℕ) (c : Date) : Date :=
  match fuel with
  | 0 => c
  | f + 1 => if t < c.d then advanceGT f t (nextDay c) else c

/-- `while current_date.day != day_of_month: current_date += timedelta(days=1)`. -/
def advanceNE (fuel : ℕ) (t : ℕ) (c : Date) : Date :=
  match fuel with
  | 0 => c
  | f + 1 => if c.d ≠ t then advanceNE f t (nextDay c) else c

/-- The two initial alignment loops: first occurrence of day-of-month `t`
at or after the start date. -/
def firstAligned (fuel : ℕ) (t : ℕ) (c : Date) : Date :=
  advanceNE fuel t (advanceGT fuel t c)

/-- The inner month-adjustment loop (source lines 365-378): advance to the
day-of-month `t`, jumping to the first of the next month whenever the day
has overshot, giving up once the end date is passed. -/
def adjustLoop (fuel : ℕ) (t : ℕ) (endD : Date) (c : Date) : Date :=
  match fuel with
  | 0 => c
  | f + 1 =>
    if c.d ≠ t ∧ c ≤ endD then
      let c' := if t < c.d then firstOfNextMonth c else addDays 1 c
      if endD < c' then c' else adjustLoop f t endD c'
    else c

/-- The outer emission loop (source lines 347-378): emit the current date,
add 28 days (February) or 30 days (other months), then re-align to the
day-of-month with `adjustLoop`.  The inner loop provably needs at most
29 iterations, so its fuel is fixed at 40. -/
def emitLoop (fuel : ℕ) (t : ℕ) (endD : Date) (c : Date) : List Date :=
  match fuel with
  | 0 => []
  | f + 1 =>
    if c ≤ endD then
      c :: emitLoop f t endD (adjustLoop 40 t endD (addDays (if c.m = 2 then 28 else 30) c))
    else []

/-- The full schedule of dates emitted for one recurring entry. -/
def recurringSchedule (fuelInit fuelOuter : ℕ) (t : ℕ) (startD endD : Date) : List Date :=
  emitLoop fuelOuter t endD (firstAligned fuelInit t startD)

/-! ## MCC catalog and merchant-to-MCC assignment
(`generate_transaction_csv.py`, lines 17-46 and 99-135) -/

def MCC_CODES : List (String × String) :=
  [("5411", "Grocery Stores"), ("5542", "Gas Stations"), ("5812", "Restaurants"),
   ("5814", "Fast Food"), ("5912", "Drug Stores"), ("5311", "Department Stores"),
   ("5661", "Shoe Stores"), ("5699", "Clothing Stores"), ("7832", "Movie Theaters"),
   ("5999", "Miscellaneous Retail"), ("4111", "Transportation"), ("7011", "Hotels"),
   ("4121", "Taxis/Rideshares"), ("5732", "Electronics"), ("8011", "Medical Services"),
   ("8021", "Dental Services"), ("8099", "Health Services"), ("8299", "Educational Services"),
   ("4816", "Online Services"), ("5945", "Hobby/Toy Stores"), ("5094", "Office Supplies"),
   ("5941", "Sporting Goods"), ("7999", "Recreation Services"), ("7230", "Beauty/Barber Shops"),
   ("7512", "Car Rentals"), ("4899", "Cable/Internet Services"), ("6300", "Insurance")]

def mcc_codes : List String := MCC_CODES.map Prod.fst

/-- The ordered keyword table of `assign_mcc_to_merchant` (Python dict
literal; iteration order is insertion order). -/
def keyword_to_mcc : List (String × String) :=
  [("walmart", "5311"), ("target", "5311"), ("costco", "5311"),
   ("kroger", "5411"), ("food", "5411"), ("grocery", "5411"), ("market", "5411"),
   ("shell", "5542"), ("bp", "5542"), ("exxon", "5542"), ("chevron", "5542"), ("gas", "5542"),
   ("mcdonald", "5814"), ("starbucks", "5814"), ("subway", "5814"), ("taco bell", "5814"),
   ("restaurant", "5812"), ("grill", "5812"), ("cafe", "5812"), ("diner", "5812"),
   ("walgreens", "5912"), ("cvs", "5912"), ("pharmacy", "5912"),
   ("shoe", "5661"),
   ("cloth", "5699"), ("apparel", "5699"), ("fashion", "5699"),
   ("movie", "7832"), ("cinema", "7832"), ("theater", "7832"),
   ("best buy", "5732"), ("apple", "5732"), ("electronics", "5732"),
   ("doctor", "8011"), ("clinic", "8011"), ("hospital", "8011"),
   ("dental", "8021"), ("dentist", "8021"),
   ("gym", "7999"), ("fitness", "7999"),
   ("uber", "4121"), ("lyft", "4121"), ("taxi", "4121"),
   ("hotel", "7011"), ("motel", "7011"), ("hilton", "7011"), ("marriott", "7011"),
   ("airline", "4111"), ("flight", "4111"), ("delta", "4111"), ("american airlines", "4111"),
   ("netflix", "4816"), ("spotify", "4816"), ("online", "4816"),
   ("toy", "5945"), ("hobby", "5945"),
   ("sport", "5941"), ("athletic", "5941"),
   ("salon", "7230"), ("barber", "7230"), ("beauty", "7230"),
   ("insurance", "6300"),
   ("internet", "4899"), ("cable", "4899"), ("at&t", "4899"), ("verizon", "4899")]

/-- The Python substring test `needle in hay`. -/
def containsSubstr (hay needle : String) : Bool :=
  hay.data.tails.any (fun s => needle.data.isPrefixOf s)

/-- `assign_mcc_to_merchant` (source lines 99-135): lowercase the name, scan
the keyword table in order, return the first matching code, default
`"5999"`. -/
def assign_mcc_to_merchant (merchant_name : String) : String :=
  match keyword_to_mcc.find? (fun kv => containsSubstr merchant_name.toLower kv.1) with
  | some kv => kv.2
  | none => "5999"

def gas_station_merchants : List String := ["Shell", "BP", "Exxon", "Chevron"]

def grocery_store_merchants : List String := ["Kroger", "Walmart", "Target", "Costco"]

/-- `select_merchant_and_mcc` (source lines 258-284).  The weighted MCC
choice, the uniform merchant choice and the two pool choices are draw
parameters; the returned code is re-derived from the merchant name. -/
def select_merchant_and_mcc (merchants : List String)
    (selected_mcc merchant_draw gas_pick grocery_pick : String) : String × String :=
  let merchant := merchant_draw
  let merchant :=
    if selected_mcc = "5542" ∧ merchants.any (fun m => gas_station_merchants.contains m) then
      gas_pick
    else if selected_mcc = "5411" ∧ merchants.any (fun m => grocery_store_merchants.contains m) then
      grocery_pick
    else merchant
  (merchant, assign_mcc_to_merchant merchant)

/-! ## Transaction amounts (`generate_transaction_amount`, lines 286-329) -/

structure AmountProfile where
  min_amount : ℚ
  max_amount : ℚ
  avg_amount : ℚ
  std_amount : ℚ

/-- The nine explicitly tabulated multiplier categories. -/
def mccMultKeys : List String :=
  ["5411", "5542", "5812", "5814", "5912", "5311", "7011", "5732", "4111"]

/-- Uniform-draw bounds of the category multiplier for each code
(fallback `[0.7, 1.5]`). -/
def mccMultBounds (mcc : String) : ℚ × ℚ :=
  if mcc = "5411" then (4/5, 3/2)
  else if mcc = "5542" then (1/2, 6/5)
  else if mcc = "5812" then (1, 2)
  else if mcc = "5814" then (3/10, 4/5)
  else if mcc = "5912" then (3/5, 6/5)
  else if mcc = "5311" then (1, 3)
  else if mcc = "7011" then (2, 5)
  else if mcc = "5732" then (3/2, 4)
  else if mcc = "4111" then (3/2, 4)
  else (7/10, 3/2)

/-- `generate_transaction_amount`: clamp the normal draw into
`[min_amount, max_amount]`, multiply by the category multiplier, and apply
the weekend boost keyed on `datetime.datetime.now().weekday()` — the
`now_weekday` parameter, NOT the date of the transaction itself (the function does
not receive a date at all). -/
def generate_transaction_amount (ap : AmountProfile) (mcc : String)
    (normal_draw : ℚ) (table_draw : String → ℚ) (fallback_draw boost_draw : ℚ)
    (now_weekday : ℕ) : ℚ :=
  let base_amount := max ap.min_amount (min normal_draw ap.max_amount)
  let mcc_multiplier := if mccMultKeys.contains mcc then table_draw mcc else fallback_draw
  let adjusted_amount := base_amount * mcc_multiplier
  let boosted_amount :=
    if now_weekday = 4 ∨ now_weekday = 5 then adjusted_amount * boost_draw
    else adjusted_amount
  round2 boosted_amount

/-! ## Transaction records (`generate_transaction`, lines 382-464) -/

structure CardData where
  card_type : String
  card_number : String
  expiration_date : String

/-- The random draws consumed by one `generate_transaction` call. -/
structure TxDraws where
  type_draw : ℚ
  decline_draw : ℚ
  pending_draw : ℚ
  settle_approved : ℕ
  settle_pending : ℕ
  fee_rate : ℚ
  batch_num : ℕ

/-- Ranges guaranteed by the random library for the draws of
`generate_transaction`: `random.random()` is in `[0, 1)`,
`random.randint(1, 3)` in `[1, 3]`, `random.randint(3, 7)` in `[3, 7]`,
`random.uniform(0.015, 0.035)` in `[0.015, 0.035]`. -/
def TxDraws.Valid (dr : TxDraws) : Prop :=
  0 ≤ dr.type_draw ∧ dr.type_draw < 1 ∧
  0 ≤ dr.decline_draw ∧ dr.decline_draw < 1 ∧
  0 ≤ dr.pending_draw ∧ dr.pending_draw < 1 ∧
  1 ≤ dr.settle_approved ∧ dr.settle_approved ≤ 3 ∧
  3 ≤ dr.settle_pending ∧ dr.settle_pending ≤ 7 ∧
  3 / 200 ≤ dr.fee_rate ∧ dr.fee_rate ≤ 7 / 200

instance (dr : TxDraws) : Decidable dr.Valid := by
  unfold TxDraws.Valid; infer_instance

structure Transaction where
  customer_id : String
  transaction_date : Date
  settlement_date : Option Date
  card_type : String
  payment_method : String
  transaction_type : String
  transaction_status : String
  merchant_category_code : String
  transaction_amount : ℚ
  currency : String
  fees : ℚ
  net_amount : ℚ
  card_number : String
  expiration_date : String
  cardholder_name : String
  merchant_name : String
  customer_name : String
  settlement_status : String
  settlement_batch_number : Option ℕ
  accounting_date : Option Date

/-- `generate_transaction` (source lines 382-464), restricted to the fields
with deterministic content (pure `fake.*`/`random`-formatted filler fields
are omitted).  `settlement_date` is `None` exactly in the Declined branch;
fees and net amount are computed from the (positive) `amount` argument and
zeroed unless Approved; `transaction_amount` is negated for refunds. -/
def generate_transaction (customer_id customer_name merchant mcc : String)
    (date : Date) (amount : ℚ) (card : CardData) (dr : TxDraws) : Transaction :=
  let transaction_type := if dr.type_draw < 1/20 then "Refund" else "Sale"
  let transaction_status :=
    if dr.decline_draw < 3/100 then "Declined"
    else if dr.pending_draw < 1/100 then "Pending"
    else "Approved"
  let settlement_date : Option Date :=
    if transaction_status = "Approved" then some (addDays dr.settle_approved date)
    else if transaction_status = "Pending" then some (addDays dr.settle_pending date)
    else none
  let settlement_status :=
    if transaction_status = "Approved" then "Settled"
    else if transaction_status = "Pending" then "Pending"
    else "N/A"
  let fees := round2 (amount * dr.fee_rate)
  let net_amount := round2 (amount - fees)
  { customer_id := customer_id
    transaction_date := date
    settlement_date := settlement_date
    card_type := card.card_type
    payment_method :=
      if ["Visa", "MasterCard", "American Express", "Discover"].contains card.card_type then
        "Credit"
      else "Debit"
    transaction_type := transaction_type
    transaction_status := transaction_status
    merchant_category_code := mcc
    transaction_amount := if transaction_type = "Sale" then amount else -amount
    currency := "USD"
    fees := if transaction_status = "Approved" then fees else 0
    net_amount := if transaction_status = "Approved" then net_amount else 0
    card_number := card.card_number
    expiration_date := card.expiration_date
    cardholder_name := customer_name
    merchant_name := merchant
    customer_name := customer_name
    settlement_status := settlement_status
    settlement_batch_number := if settlement_date.isSome then some dr.batch_num else none
    accounting_date := settlement_date }

/-- One organic (daily) transaction, as assembled by
`generate_customer_transactions` (source lines 507-522): merchant and MCC
from `select_merchant_and_mcc`, amount from `generate_transaction_amount`,
record from `generate_transaction`. -/
def organic_transaction (customer_id customer_name : String) (merchants : List String)
    (ap : AmountProfile) (selected_mcc merchant_draw gas_pick grocery_pick : String)
    (normal_draw : ℚ) (table_draw : String → ℚ) (fallback_draw boost_draw : ℚ)
    (now_weekday : ℕ) (current_date : Date) (card : CardData) (dr : TxDraws) : Transaction :=
  let mc := select_merchant_and_mcc merchants selected_mcc merchant_draw gas_pick grocery_pick
  let amount := generate_transaction_amount ap mc.2 normal_draw table_draw fallback_draw
    boost_draw now_weekday
  generate_transaction customer_id customer_name mc.1 mc.2 current_date amount card dr

/-- `datetime.date.weekday()`: Monday is `0`, so Friday is `4` and Saturday
is `5` (calibrated so that year 1, January 1 — proleptic Gregorian — is a
Monday). -/
def Date.weekday (c : Date) : ℕ := (c.toN + 4) % 7

/-! ## Recurring transactions (profile entries, lines 184-202 and 331-380) -/

structure RecurringEntry where
  merchant : String
  amount : ℚ
  day_of_month : ℕ
  mcc : String

def subscription_merchants : List String :=
  ["Netflix", "Spotify", "Amazon Prime", "Gym Membership", "Internet Service",
   "Phone Bill", "Insurance", "Streaming Service", "Subscription Box", "Cloud Storage"]

/-- Construction of one recurring entry in `create_spending_profile`
(source lines 188-202): the MCC of the entry is `assign_mcc_to_merchant` of the
chosen merchant. -/
def mkRecurringEntry (merchant : String) (amount : ℚ) (day_of_month : ℕ) : RecurringEntry :=
  { merchant := merchant
    amount := amount
    day_of_month := day_of_month
    mcc := assign_mcc_to_merchant merchant }

def grtAux (customer_id customer_name : String) (e : RecurringEntry) (card : CardData)
    (drs : ℕ → TxDraws) (k : ℕ) (dates : List Date) : List Transaction :=
  match dates with
  | [] => []
  | d :: ds =>
    generate_transaction customer_id customer_name e.merchant e.mcc d e.amount card (drs k) ::
      grtAux customer_id customer_name e card drs (k + 1) ds

/-- `generate_recurring_transactions` for a single recurring entry: one
record per scheduled date, each built by `generate_transaction` from the
merchant, MCC and amount of the entry (the full source function concatenates
this over the entries of the profile). -/
def generate_recurring_transactions (customer_id customer_name : String) (e : RecurringEntry)
    (startD endD : Date) (card : CardData) (drs : ℕ → TxDraws)
    (fuelInit fuelOuter : ℕ) : List Transaction :=
  grtAux customer_id customer_name e card drs 0
    (recurringSchedule fuelInit fuelOuter e.day_of_month startD endD)

/-! ## Spending-profile category weights (`create_spending_profile`,
lines 137-163) -/

/-- The weight drawn for one category before normalization: a `[0.1, 0.25]`
uniform draw for primary categories, `[0.01, 0.09]` for secondary ones, and
`[0, 0.01]` for the rest (the per-category draws are the three functions). -/
def mcc_preference_raw (primary secondary : List String)
    (draw_primary draw_secondary draw_rest : String → ℚ) (mcc : String) : ℚ :=
  if primary.contains mcc then draw_primary mcc
  else if secondary.contains mcc then draw_secondary mcc
  else draw_rest mcc

/-- `sum(mcc_preference.values())` over the catalog. -/
def total_weight (w : String → ℚ) : ℚ := (mcc_codes.map w).sum

/-- The normalized category weight (`mcc_preference[mcc] /= total_weight`). -/
def mcc_preference (primary secondary : List String)
    (draw_primary draw_secondary draw_rest : String → ℚ) (mcc : String) : ℚ :=
  mcc_preference_raw primary secondary draw_primary draw_secondary draw_rest mcc /
    total_weight (mcc_preference_raw primary secondary draw_primary draw_secondary draw_rest)

/-- `weekend_weight = 1 - weekday_weight` (source line 163). -/
def weekend_weight (weekday_weight : ℚ) : ℚ := 1 - weekday_weight

/-- Range constraints guaranteed by the uniform draws of
`create_spending_profile` for the three weight-draw functions. -/
def WeightDrawsValid (primary secondary : List String)
    (draw_primary draw_secondary draw_rest : String → ℚ) : Prop :=
  (∀ c ∈ primary, 1/10 ≤ draw_primary c ∧ draw_primary c ≤ 1/4) ∧
  (∀ c ∈ secondary, 1/100 ≤ draw_secondary c ∧ draw_secondary c ≤ 9/100) ∧
  (∀ c : String, 0 ≤ draw_rest c ∧ draw_rest c ≤ 1/100)

/-! ## Offer records (`generate_dummy_data.py`, `generate_dummy_data`,
lines 151-259) -/

def OFFER_TYPES : List String :=
  ["discount", "cashback", "buy_one_get_one", "reward_points", "free_delivery",
   "flash_sale", "bundle_offer", "first_purchase", "limited_time", "clearance_sale"]

/-- The random draws consumed by the discount-field switch of one offer. -/
structure OfferDraws where
  pct_main : ℚ
  min_draw : ℚ
  min_main : ℚ
  cash_draw : ℚ
  cash_pct : ℚ
  cash_value : ℚ
  cash_min : ℚ
  delivery_min_draw : ℚ
  delivery_min : ℚ
  first_draw : ℚ
  first_pct : ℚ
  first_value : ℚ
  bundle_draw : ℚ
  bundle_pct : ℚ
  bundle_min : ℚ

/-- The per-type discount-field switch (source lines 174-211): returns
`(discount_percent, discount_value, minimum_purchase)`.  The
`buy_one_get_one`, `reward_points` and `limited_time` branches leave all
three fields `None`. -/
def offer_discount_fields (offer_type : String) (d : OfferDraws) :
    Option ℚ × Option ℚ × Option ℚ :=
  if offer_type = "discount" ∨ offer_type = "flash_sale" ∨ offer_type = "clearance_sale" then
    (some d.pct_main, none, if d.min_draw < 7/10 then some d.min_main else none)
  else if offer_type = "cashback" then
    if d.cash_draw < 3/5 then (some d.cash_pct, none, some d.cash_min)
    else (none, some d.cash_value, some d.cash_min)
  else if offer_type = "free_delivery" ∨ offer_type = "first_purchase" then
    let min_purchase := if d.delivery_min_draw < 4/5 then some d.delivery_min else none
    if offer_type = "first_purchase" then
      if d.first_draw < 1/2 then (some d.first_pct, none, min_purchase)
      else (none, some d.first_value, min_purchase)
    else (none, none, min_purchase)
  else if offer_type = "bundle_offer" then
    ((if d.bundle_draw < 3/5 then some d.bundle_pct else none), none, some d.bundle_min)
  else
    (none, none, none)

/-- An offer record (fields the claims are about).  Dates are represented by
their day offset from an arbitrary epoch (an order-isomorphic image of
`datetime.date`), so `today + timedelta(days = k)` is `today + k`. -/
structure Offer where
  merchant : String
  category : String
  offer_type : String
  discount_percent : Option ℚ
  discount_value : Option ℚ
  minimum_purchase : Option ℚ
  valid_from : ℤ
  valid_until : ℤ

/-- Assembly of one offer record (source lines 158-252):
`valid_from = today + timedelta(days = max(-30, days_to_add - randint(5, 30)))`,
`valid_until = today + timedelta(days = days_to_add + randint(15, 120))`,
discount fields from the per-type switch. -/
def generate_offer (today : ℤ) (category merchant offer_type : String)
    (days_to_add back_off fwd_off : ℤ) (d : OfferDraws) : Offer :=
  let valid_from := today + max (-30) (days_to_add - back_off)
  let valid_until := today + (days_to_add + fwd_off)
  let fields := offer_discount_fields offer_type d
  { merchant := merchant
    category := category
    offer_type := offer_type
    discount_percent := fields.1
    discount_value := fields.2.1
    minimum_purchase := fields.2.2
    valid_from := valid_from
    valid_until := valid_until }

/-! ## Concrete sample inputs used by witnesses and counterexamples -/

/-- A concrete draw tuple with a Sale/Approved outcome. -/
def sampleDraws : TxDraws :=
  { type_draw := 1/2, decline_draw := 1/2, pending_draw := 1/2,
    settle_approved := 2, settle_pending := 5, fee_rate := 1/50, batch_num := 123456 }

/-- A concrete draw tuple whose type draw falls in the 5% Refund band and
whose status draws give Approved. -/
def refundDraws : TxDraws :=
  { type_draw := 0, decline_draw := 1/2, pending_draw := 1/2,
    settle_approved := 1, settle_pending := 3, fee_rate := 1/50, batch_num := 7 }

def sampleCard : CardData :=
  { card_type := "Visa", card_number := "4111 XXXX XXXX 1111", expiration_date := "12/26" }

def sampleOfferDraws : OfferDraws :=
  { pct_main := 20, min_draw := 1/2, min_main := 999, cash_draw := 1/2, cash_pct := 10,
    cash_value := 100, cash_min := 499, delivery_min_draw := 1/2, delivery_min := 299,
    first_draw := 1/2, first_pct := 10, first_value := 100, bundle_draw := 1/2,
    bundle_pct := 10, bundle_min := 999 }

theorem round2_sub_le (x : ℚ) : |round2 x - x| ≤ 1 / 200 := by
  have h := abs_sub_round (x * 100)
  rw [abs_le] at h
  rw [round2, abs_le]
  constructor <;> linarith [h.1, h.2]

theorem round2_le (x : ℚ) : round2 x ≤ x + 1 / 200 := by
  have h := round2_sub_le x
  rw [abs_le] at h
  linarith [h.2]

theorem le_round2 (x : ℚ) : x - 1 / 200 ≤ round2 x := by
  have h := round2_sub_le x
  rw [abs_le] at h
  linarith [h.1]

theorem monthLen_ge (y m : ℕ) (h1 : 1 ≤ m) (h2 : m ≤ 12) : 28 ≤ monthLen y m := by
  interval_cases m <;> simp [monthLen] <;> split <;> omega

theorem monthLen_le (y m : ℕ) (h1 : 1 ≤ m) (h2 : m ≤ 12) : monthLen y m ≤ 31 := by
  interval_cases m <;> simp [monthLen] <;> split <;> omega

theorem Valid_firstOfNextMonth (c : Date) (h : c.Valid) : (firstOfNextMonth c).Valid := by
  obtain ⟨h1, h2, h3, h4⟩ := h
  unfold firstOfNextMonth
  split
  · have hg := monthLen_ge (c.y + 1) 1 (by omega) (by omega)
    refine ⟨?_, ?_, ?_, ?_⟩ <;> dsimp only <;> omega
  · next hne =>
    have hg := monthLen_ge c.y (c.m + 1) (by omega) (by omega)
    refine ⟨?_, ?_, ?_, ?_⟩ <;> dsimp only <;> omega

theorem Valid_nextDay (c : Date) (h : c.Valid) : (nextDay c).Valid := by
  unfold nextDay
  split
  · next hlt =>
    obtain ⟨h1, h2, h3, h4⟩ := h
    refine ⟨?_, ?_, ?_, ?_⟩ <;> dsimp only <;> omega
  · exact Valid_firstOfNextMonth c h

theorem Valid_addDays (k : ℕ) (c : Date) (h : c.Valid) : (addDays k c).Valid := by
  induction k generalizing c with
  | zero => exact h
  | succ n ih => exact ih (nextDay c) (Valid_nextDay c h)

theorem Date.le_def (a b : Date) : (a ≤ b) = (a.toN ≤ b.toN) := rfl

theorem Date.lt_def (a b : Date) : (a < b) = (a.toN < b.toN) := rfl

theorem daysBefore_succ (y m : ℕ) (h : 1 ≤ m) :
    daysBefore y (m + 1) = daysBefore y m + monthLen y m := by
  match m, h with
  | m + 1, _ => rfl

theorem daysBefore_mono (y : ℕ) {m m' : ℕ} (h1 : 1 ≤ m) (h : m ≤ m') :
    daysBefore y m ≤ daysBefore y m' := by
  induction m' with
  | zero => omega
  | succ n ih =>
    rcases Nat.lt_or_ge m (n + 1) with hlt | hge
    · have hn : 1 ≤ n := by omega
      calc daysBefore y m ≤ daysBefore y n := ih (by omega)
        _ ≤ daysBefore y (n + 1) := by rw [daysBefore_succ y n hn]; omega
    · have heq : m = n + 1 := by omega
      subst heq
      exact le_refl _

theorem daysBefore_thirteen (y : ℕ) : daysBefore y 13 = daysInYear y := by
  show daysBefore y 12 + monthLen y 12 = daysInYear y
  show daysBefore y 11 + monthLen y 11 + monthLen y 12 = daysInYear y
  show daysBefore y 10 + monthLen y 10 + monthLen y 11 + monthLen y 12 = daysInYear y
  simp only [daysBefore, monthLen, daysInYear]
  cases h : isLeap y <;> simp [h]

theorem daysBefore_add_len_le (y m : ℕ) (h1 : 1 ≤ m) (h2 : m ≤ 12) :
    daysBefore y m + monthLen y m ≤ daysInYear y := by
  rw [← daysBefore_succ y m h1, ← daysBefore_thirteen y]
  exact daysBefore_mono y (by omega) (by omega)

theorem yearDays_succ (y : ℕ) : yearDays (y + 1) = yearDays y + daysInYear y := rfl

theorem daysInYear_ge (y : ℕ) : 365 ≤ daysInYear y := by
  unfold daysInYear; split <;> omega

theorem yearDays_mono {y y' : ℕ} (h : y ≤ y') : yearDays y ≤ yearDays y' := by
  induction y' with
  | zero =>
    have heq : y = 0 := by omega
    subst heq
    exact le_refl _
  | succ n ih =>
    rcases Nat.lt_or_ge y (n + 1) with hlt | hge
    · calc yearDays y ≤ yearDays n := ih (by omega)
        _ ≤ yearDays (n + 1) := by rw [yearDays_succ]; omega
    · have heq : y = n + 1 := by omega
      subst heq
      exact le_refl _

theorem toN_nextDay (c : Date) (h : c.Valid) : (nextDay c).toN = c.toN + 1 := by
  obtain ⟨h1, h2, h3, h4⟩ := h
  unfold nextDay
  split
  · next hlt =>
    simp only [Date.toN]
    omega
  · next hge =>
    have hd : c.d = monthLen c.y c.m := by omega
    unfold firstOfNextMonth
    split
    · next hm12 =>
      have h13 : daysBefore c.y 13 = daysInYear c.y := daysBefore_thirteen c.y
      have hsucc : daysBefore c.y 13 = daysBefore c.y 12 + monthLen c.y 12 :=
        daysBefore_succ c.y 12 (by omega)
      rw [hm12] at hd
      simp only [Date.toN, hm12, yearDays_succ]
      have hone : daysBefore (c.y + 1) 1 = 0 := rfl
      omega
    · next hm12 =>
      simp only [Date.toN]
      rw [daysBefore_succ c.y c.m h1]
      omega

theorem toN_addDays (k : ℕ) (c : Date) (h : c.Valid) :
    (addDays k c).toN = c.toN + k := by
  induction k generalizing c with
  | zero => rfl
  | succ n ih =>
    show (addDays n (nextDay c)).toN = c.toN + (n + 1)
    rw [ih (nextDay c) (Valid_nextDay c h), toN_nextDay c h]
    omega

theorem addDays_add (a b : ℕ) (c : Date) : addDays (a + b) c = addDays b (addDays a c) := by
  induction a generalizing c with
  | zero =>
    rw [Nat.zero_add]
    rfl
  | succ n ih =>
    have h : n + 1 + b = (n + b) + 1 := by omega
    rw [h]
    show addDays (n + b) (nextDay c) = addDays b (addDays (n + 1) c)
    exact ih (nextDay c)

theorem addDays_within (k : ℕ) (y m d : ℕ) (hv : (Date.mk y m d).Valid)
    (h : d + k ≤ monthLen y m) : addDays k (Date.mk y m d) = Date.mk y m (d + k) := by
  induction k generalizing d with
  | zero => rfl
  | succ n ih =>
    obtain ⟨h1, h2, h3, h4⟩ := hv
    show addDays n (nextDay (Date.mk y m d)) = Date.mk y m (d + (n + 1))
    have hlt : d < monthLen y m := by dsimp only at h3 h4 ⊢; omega
    have hnd : nextDay (Date.mk y m d) = Date.mk y m (d + 1) := by
      unfold nextDay
      rw [if_pos]
      exact hlt
    rw [hnd, ih (d + 1) ⟨by dsimp only at *; omega, by dsimp only at *; omega,
      by dsimp only; omega, by dsimp only at *; omega⟩ (by omega)]
    congr 1
    omega

theorem dayOffset_le (c : Date) (h : c.Valid) :
    daysBefore c.y c.m + c.d ≤ daysInYear c.y := by
  obtain ⟨h1, h2, h3, h4⟩ := h
  have := daysBefore_add_len_le c.y c.m h1 h2
  omega

/-- Chronological order of valid dates is lexicographic order on
(year, month, day). -/
theorem toN_lt_of_lex (a b : Date) (ha : a.Valid) (hb : b.Valid)
    (h : a.y < b.y ∨ (a.y = b.y ∧ a.m < b.m) ∨ (a.y = b.y ∧ a.m = b.m ∧ a.d < b.d)) :
    a.toN < b.toN := by
  obtain ⟨ha1, ha2, ha3, ha4⟩ := ha
  obtain ⟨hb1, hb2, hb3, hb4⟩ := hb
  unfold Date.toN
  rcases h with hy | ⟨hy, hm⟩ | ⟨hy, hm, hd⟩
  · have hoff : daysBefore a.y a.m + a.d ≤ daysInYear a.y :=
      dayOffset_le a ⟨ha1, ha2, ha3, ha4⟩
    have hy1 : yearDays (a.y + 1) = yearDays a.y + daysInYear a.y := yearDays_succ a.y
    have hy2 : yearDays (a.y + 1) ≤ yearDays b.y := yearDays_mono (by omega)
    omega
  · rw [hy] at ha4 ⊢
    have hstep : daysBefore b.y (a.m + 1) = daysBefore b.y a.m + monthLen b.y a.m :=
      daysBefore_succ b.y a.m (by omega)
    have hmono : daysBefore b.y (a.m + 1) ≤ daysBefore b.y b.m :=
      daysBefore_mono b.y (by omega) (by omega)
    omega
  · rw [hy, hm]
    omega

theorem toN_le_of_lex_le (a b : Date) (ha : a.Valid) (hb : b.Valid)
    (h : a.y < b.y ∨ (a.y = b.y ∧ a.m < b.m) ∨ (a.y = b.y ∧ a.m = b.m ∧ a.d ≤ b.d)) :
    a.toN ≤ b.toN := by
  rcases h with hy | ⟨hy, hm⟩ | ⟨hy, hm, hd⟩
  · exact le_of_lt (toN_lt_of_lex a b ha hb (Or.inl hy))
  · exact le_of_lt (toN_lt_of_lex a b ha hb (Or.inr (Or.inl ⟨hy, hm⟩)))
  · unfold Date.toN
    rw [hy, hm]
    omega

theorem pair_le_of_toN_le (a b : Date) (ha : a.Valid) (hb : b.Valid)
    (hd : a.d = b.d) (h : a.toN ≤ b.toN) :
    a.y < b.y ∨ (a.y = b.y ∧ a.m ≤ b.m) := by
  rcases Nat.lt_trichotomy a.y b.y with hy | hy | hy
  · exact Or.inl hy
  · rcases Nat.lt_or_ge b.m a.m with hm | hm
    · exfalso
      have := toN_lt_of_lex b a hb ha (Or.inr (Or.inl ⟨hy.symm, hm⟩))
      omega
    · exact Or.inr ⟨hy, by omega⟩
  · exfalso
    have := toN_lt_of_lex b a hb ha (Or.inl hy)
    omega

theorem Valid_targetOf (c : Date) (t : ℕ) (h : c.Valid) (ht1 : 1 ≤ t) (ht2 : t ≤ 28) :
    (targetOf c t).Valid := by
  have hf := Valid_firstOfNextMonth c h
  obtain ⟨f1, f2, f3, f4⟩ := hf
  have hg := monthLen_ge (firstOfNextMonth c).y (firstOfNextMonth c).m f1 f2
  exact ⟨f1, f2, ht1, by dsimp only [targetOf]; omega⟩

theorem toN_targetOf (c : Date) (t : ℕ) (h : c.Valid) :
    (targetOf c t).toN = (Date.mk c.y c.m t).toN + monthLen c.y c.m := by
  obtain ⟨h1, h2, h3, h4⟩ := h
  unfold targetOf firstOfNextMonth
  split
  · next hm12 =>
    have h13 : daysBefore c.y 13 = daysInYear c.y := daysBefore_thirteen c.y
    have hsucc : daysBefore c.y 13 = daysBefore c.y 12 + monthLen c.y 12 :=
      daysBefore_succ c.y 12 (by omega)
    simp only [Date.toN, hm12, yearDays_succ]
    have hone : daysBefore (c.y + 1) 1 = 0 := rfl
    omega
  · simp only [Date.toN]
    rw [daysBefore_succ c.y c.m h1]
    omega

theorem monthLen_pos_toN (c : Date) (t : ℕ) (h : c.Valid) :
    (Date.mk c.y c.m t).toN + 28 ≤ (targetOf c t).toN := by
  rw [toN_targetOf c t h]
  have := monthLen_ge c.y c.m h.1 h.2.1
  omega

/-- From `c ≤ X` and a different (year, month), the month of `X` is
strictly later than the month of `c`. -/
theorem pair_lt_of_le (c X : Date) (hc : c.Valid) (hX : X.Valid)
    (hle : c.toN ≤ X.toN)
    (hne : ¬(X.y = c.y ∧ X.m = c.m)) :
    c.y < X.y ∨ (c.y = X.y ∧ c.m < X.m) := by
  rcases Nat.lt_trichotomy c.y X.y with hy | hy | hy
  · exact Or.inl hy
  · rcases Nat.lt_trichotomy c.m X.m with hm | hm | hm
    · exact Or.inr ⟨hy, hm⟩
    · exact absurd ⟨hy.symm, hm.symm⟩ hne
    · exfalso
      have := toN_lt_of_lex X c hX hc (Or.inr (Or.inl ⟨hy.symm, hm⟩))
      omega
  · exfalso
    have := toN_lt_of_lex X c hX hc (Or.inl hy)
    omega

/-- Among valid dates with day-of-month `t`, the date `targetOf c t` is the
least one whose month is strictly after the month of `c`. -/
theorem targetOf_min (c X : Date) (t : ℕ) (hc : c.Valid) (hX : X.Valid)
    (ht1 : 1 ≤ t) (ht2 : t ≤ 28) (hXd : X.d = t)
    (hpair : c.y < X.y ∨ (c.y = X.y ∧ c.m < X.m)) :
    (targetOf c t).toN ≤ X.toN := by
  have hVt : (targetOf c t).Valid := Valid_targetOf c t hc ht1 ht2
  have hXm : X.m ≤ 12 := hX.2.1
  have hXm1 : 1 ≤ X.m := hX.1
  have hcm : c.m ≤ 12 := hc.2.1
  have hcm1 : 1 ≤ c.m := hc.1
  apply toN_le_of_lex_le (targetOf c t) X hVt hX
  unfold targetOf firstOfNextMonth
  split
  · next hm12 =>
    dsimp only
    rcases hpair with hy | ⟨hy, hm⟩
    · rcases Nat.lt_or_ge (c.y + 1) X.y with hlt | hge
      · exact Or.inl hlt
      · have heq : c.y + 1 = X.y := by omega
        rcases Nat.lt_or_ge 1 X.m with hm1 | hm1
        · exact Or.inr (Or.inl ⟨heq, hm1⟩)
        · exact Or.inr (Or.inr ⟨heq, by omega, by omega⟩)
    · omega
  · next hm12 =>
    dsimp only
    rcases hpair with hy | ⟨hy, hm⟩
    · exact Or.inl hy
    · rcases Nat.lt_or_ge (c.m + 1) X.m with hlt | hge
      · exact Or.inr (Or.inl ⟨hy, hlt⟩)
      · have heq : c.m + 1 = X.m := by omega
        exact Or.inr (Or.inr ⟨hy, heq, by omega⟩)

theorem advanceGT_stop (f t : ℕ) (c : Date) (h : c.d ≤ t) : advanceGT f t c = c := by
  cases f with
  | zero => rfl
  | succ n =>
    unfold advanceGT
    rw [if_neg]
    omega

theorem advanceGT_roll (f t : ℕ) (c : Date) (hv : c.Valid) (ht : 1 ≤ t) (hd : t < c.d)
    (hf : monthLen c.y c.m + 1 ≤ f + c.d) :
    advanceGT f t c = firstOfNextMonth c := by
  induction f generalizing c with
  | zero =>
    exfalso
    have := hv.2.2.2
    omega
  | succ n ih =>
    unfold advanceGT
    rw [if_pos hd]
    rcases Nat.lt_or_ge c.d (monthLen c.y c.m) with hlt | hge
    · have hnd : nextDay c = Date.mk c.y c.m (c.d + 1) := by
        unfold nextDay
        rw [if_pos hlt]
      rw [hnd]
      have hv' : (Date.mk c.y c.m (c.d + 1)).Valid :=
        ⟨hv.1, hv.2.1, by dsimp only; omega, by dsimp only; omega⟩
      have := ih (Date.mk c.y c.m (c.d + 1)) hv' (by dsimp only; omega) (by dsimp only; omega)
      rw [this]
      unfold firstOfNextMonth
      dsimp only
    · have hnd : nextDay c = firstOfNextMonth c := by
        unfold nextDay
        rw [if_neg]
        omega
      rw [hnd]
      apply advanceGT_stop
      have hf1 := Valid_firstOfNextMonth c hv
      unfold firstOfNextMonth at *
      split <;> dsimp only <;> omega

theorem advanceNE_reach (f t : ℕ) (c : Date) (hv : c.Valid) (hd : c.d ≤ t) (ht : t ≤ 28)
    (hf : t ≤ f + c.d) :
    advanceNE f t c = Date.mk c.y c.m t := by
  induction f generalizing c with
  | zero =>
    have heq : c.d = t := by omega
    cases c
    unfold advanceNE
    dsimp only at heq
    rw [heq]
  | succ n ih =>
    rcases Nat.lt_or_ge c.d t with hlt | hge
    · unfold advanceNE
      rw [if_pos (by omega)]
      have hml := monthLen_ge c.y c.m hv.1 hv.2.1
      have hnd : nextDay c = Date.mk c.y c.m (c.d + 1) := by
        unfold nextDay
        rw [if_pos]
        omega
      rw [hnd]
      exact ih (Date.mk c.y c.m (c.d + 1))
        ⟨hv.1, hv.2.1, by dsimp only; omega, by dsimp only; omega⟩
        (by dsimp only; omega) (by dsimp only; omega)
    · have heq : c.d = t := by omega
      cases c
      unfold advanceNE
      dsimp only at heq
      rw [if_neg (by dsimp only; omega)]
      rw [heq]

/-- The two initial alignment loops land on the first valid date with
day-of-month `t` at or after the start date (64 fuel is enough: the first
loop runs at most 31 iterations, the second at most 27). -/
theorem firstAligned_spec (f t : ℕ) (c : Date) (hv : c.Valid) (ht1 : 1 ≤ t)
    (ht2 : t ≤ 28) (hf : 64 ≤ f) :
    (firstAligned f t c).Valid ∧ (firstAligned f t c).d = t ∧
      c.toN ≤ (firstAligned f t c).toN ∧
      ∀ X : Date, X.Valid → X.d = t → c.toN ≤ X.toN → (firstAligned f t c).toN ≤ X.toN := by
  have hml := monthLen_ge c.y c.m hv.1 hv.2.1
  have hmlle := monthLen_le c.y c.m hv.1 hv.2.1
  have hd1 : 1 ≤ c.d := hv.2.2.1
  have hdle : c.d ≤ monthLen c.y c.m := hv.2.2.2
  rcases Nat.lt_or_ge t c.d with hgt | hle
  · have h1 : advanceGT f t c = firstOfNextMonth c :=
      advanceGT_roll f t c hv ht1 hgt (by omega)
    have hfv := Valid_firstOfNextMonth c hv
    have hfd : (firstOfNextMonth c).d = 1 := by
      unfold firstOfNextMonth
      split <;> rfl
    have h2 : advanceNE f t (firstOfNextMonth c) = targetOf c t := by
      rw [advanceNE_reach f t (firstOfNextMonth c) hfv (by omega) ht2 (by omega)]
      rfl
    have hres : firstAligned f t c = targetOf c t := by
      unfold firstAligned
      rw [h1, h2]
    rw [hres]
    have hVt := Valid_targetOf c t hv ht1 ht2
    have htoN := toN_targetOf c t hv
    have hmkN : (Date.mk c.y c.m t).toN = yearDays c.y + daysBefore c.y c.m + t := rfl
    have hcN : c.toN = yearDays c.y + daysBefore c.y c.m + c.d := rfl
    refine ⟨hVt, rfl, by omega, ?_⟩
    intro X hX hXd hXle
    by_cases hne : X.y = c.y ∧ X.m = c.m
    · exfalso
      obtain ⟨hy, hm⟩ := hne
      have hXN : X.toN = yearDays c.y + daysBefore c.y c.m + t := by
        cases X
        dsimp only at hy hm hXd ⊢
        rw [hy, hm, hXd]
        rfl
      omega
    · exact targetOf_min c X t hv hX ht1 ht2 hXd (pair_lt_of_le c X hv hX hXle hne)
  · have h1 : advanceGT f t c = c := advanceGT_stop f t c hle
    have h2 : advanceNE f t c = Date.mk c.y c.m t := advanceNE_reach f t c hv hle ht2 (by omega)
    have hres : firstAligned f t c = Date.mk c.y c.m t := by
      unfold firstAligned
      rw [h1, h2]
    rw [hres]
    have hV : (Date.mk c.y c.m t).Valid := ⟨hv.1, hv.2.1, ht1, by dsimp only; omega⟩
    have hmkN : (Date.mk c.y c.m t).toN = yearDays c.y + daysBefore c.y c.m + t := rfl
    have hcN : c.toN = yearDays c.y + daysBefore c.y c.m + c.d := rfl
    refine ⟨hV, rfl, by omega, ?_⟩
    intro X hX hXd hXle
    by_cases hne : X.y = c.y ∧ X.m = c.m
    · obtain ⟨hy, hm⟩ := hne
      have hXeq : X = Date.mk c.y c.m t := by
        cases X
        dsimp only at hy hm hXd ⊢
        rw [hy, hm, hXd]
      rw [hXeq]
    · have h3 := targetOf_min c X t hv hX ht1 ht2 hXd (pair_lt_of_le c X hv hX hXle hne)
      have h4 := monthLen_pos_toN c t hv
      omega

theorem firstOfNextMonth_eta (c : Date) :
    firstOfNextMonth c = Date.mk (firstOfNextMonth c).y (firstOfNextMonth c).m 1 := by
  unfold firstOfNextMonth
  split <;> rfl

theorem addDays_one (c : Date) : addDays 1 c = nextDay c := rfl

/-- Adding `k` days from day `d` of a month, where `k` overshoots the end of
the month but lands inside the next month, gives day `k + d - len` of the
next month. -/
theorem addDays_cross (k y m d : ℕ) (hv : (Date.mk y m d).Valid)
    (hk1 : monthLen y m - d < k)
    (hk2 : k + d - monthLen y m ≤
      monthLen (firstOfNextMonth (Date.mk y m d)).y (firstOfNextMonth (Date.mk y m d)).m) :
    addDays k (Date.mk y m d) =
      Date.mk (firstOfNextMonth (Date.mk y m d)).y (firstOfNextMonth (Date.mk y m d)).m
        (k + d - monthLen y m) := by
  obtain ⟨h1, h2, h3, h4⟩ := hv
  dsimp only at h1 h2 h3 h4
  have hsplit : k = (monthLen y m - d) + (1 + (k + d - monthLen y m - 1)) := by omega
  rw [hsplit, addDays_add,
    addDays_within (monthLen y m - d) y m d ⟨h1, h2, h3, h4⟩ (by omega)]
  have hdL : d + (monthLen y m - d) = monthLen y m := by omega
  rw [hdL, addDays_add 1]
  have hnd : addDays 1 (Date.mk y m (monthLen y m)) =
      Date.mk (firstOfNextMonth (Date.mk y m d)).y (firstOfNextMonth (Date.mk y m d)).m 1 := by
    rw [addDays_one]
    unfold nextDay
    rw [if_neg (by dsimp only; omega)]
    rw [show firstOfNextMonth (Date.mk y m (monthLen y m)) = firstOfNextMonth (Date.mk y m d)
      from rfl]
    exact firstOfNextMonth_eta _
  rw [hnd]
  have hFv : (Date.mk (firstOfNextMonth (Date.mk y m d)).y
      (firstOfNextMonth (Date.mk y m d)).m 1).Valid := by
    have := Valid_firstOfNextMonth (Date.mk y m d) ⟨h1, h2, h3, h4⟩
    rw [firstOfNextMonth_eta (Date.mk y m d)] at this
    exact this
  rw [addDays_within _ _ _ _ hFv (by omega)]
  congr 1
  omega

theorem adjustLoop_succ (f t : ℕ) (endD c : Date) :
    adjustLoop (f + 1) t endD c =
      if c.d ≠ t ∧ c ≤ endD then
        if endD < (if t < c.d then firstOfNextMonth c else addDays 1 c) then
          (if t < c.d then firstOfNextMonth c else addDays 1 c)
        else adjustLoop f t endD (if t < c.d then firstOfNextMonth c else addDays 1 c)
      else c := rfl

theorem adjust_stop (f t : ℕ) (endD c : Date) (h : c.d = t) :
    adjustLoop f t endD c = c := by
  cases f with
  | zero => rfl
  | succ n =>
    rw [adjustLoop_succ, if_neg]
    intro hc
    exact hc.1 h

/-- The adjustment loop started one day before the target day of month
reaches the target (or was already past the end date). -/
theorem adjust_pred (f t : ℕ) (endD : Date) (fy fm : ℕ) (hf : 1 ≤ f)
    (ht : 2 ≤ t) (ht2 : t ≤ 28) (hlen : t ≤ monthLen fy fm) :
    adjustLoop f t endD (Date.mk fy fm (t - 1)) = Date.mk fy fm t ∨
      (adjustLoop f t endD (Date.mk fy fm (t - 1)) = Date.mk fy fm (t - 1) ∧
        ¬ Date.mk fy fm (t - 1) ≤ endD) := by
  cases f with
  | zero => omega
  | succ n =>
    rw [adjustLoop_succ]
    by_cases hle : Date.mk fy fm (t - 1) ≤ endD
    · rw [if_pos ⟨by dsimp only; omega, hle⟩]
      have hinner : (if t < (Date.mk fy fm (t - 1)).d then firstOfNextMonth (Date.mk fy fm (t - 1))
          else addDays 1 (Date.mk fy fm (t - 1))) = Date.mk fy fm t := by
        rw [if_neg (by dsimp only; omega), addDays_one]
        unfold nextDay
        rw [if_pos (by dsimp only; omega)]
        show Date.mk fy fm (t - 1 + 1) = Date.mk fy fm t
        congr 1
        omega
      rw [hinner]
      split
      · exact Or.inl rfl
      · exact Or.inl (adjust_stop n t endD (Date.mk fy fm t) rfl)
    · rw [if_neg (fun hc => hle hc.2)]
      exact Or.inr ⟨rfl, hle⟩

/-- The adjustment loop started past the target day jumps to the first of
the next month; when the target day is that first day it stops there. -/
theorem adjust_over (f t : ℕ) (endD : Date) (c1 : Date) (hf : 1 ≤ f) (hd : t < c1.d)
    (hfd : (firstOfNextMonth c1).d = t) :
    adjustLoop f t endD c1 = firstOfNextMonth c1 ∨
      (adjustLoop f t endD c1 = c1 ∧ ¬ c1 ≤ endD) := by
  cases f with
  | zero => omega
  | succ n =>
    rw [adjustLoop_succ]
    by_cases hle : c1 ≤ endD
    · rw [if_pos ⟨by omega, hle⟩]
      rw [if_pos hd]
      split
      · exact Or.inl rfl
      · exact Or.inl (adjust_stop n t endD _ hfd)
    · rw [if_neg (fun hc => hle hc.2)]
      exact Or.inr ⟨rfl, hle⟩

theorem adjust_lastday (f : ℕ) (endD : Date) (y m : ℕ) (h1 : 1 ≤ m) (h2 : m ≤ 12)
    (hf : 1 ≤ f) :
    adjustLoop f 1 endD (Date.mk y m (monthLen y m)) = targetOf (Date.mk y m 1) 1 ∨
      (¬ adjustLoop f 1 endD (Date.mk y m (monthLen y m)) ≤ endD ∧
        ¬ targetOf (Date.mk y m 1) 1 ≤ endD) := by
  have hml := monthLen_ge y m h1 h2
  have hfon_d : (firstOfNextMonth (Date.mk y m (monthLen y m))).d = 1 := by
    unfold firstOfNextMonth
    split <;> rfl
  have hfon_eq : firstOfNextMonth (Date.mk y m (monthLen y m)) = targetOf (Date.mk y m 1) 1 := by
    show _ = Date.mk (firstOfNextMonth (Date.mk y m 1)).y (firstOfNextMonth (Date.mk y m 1)).m 1
    rw [show firstOfNextMonth (Date.mk y m (monthLen y m)) = firstOfNextMonth (Date.mk y m 1)
      from rfl]
    exact firstOfNextMonth_eta _
  rcases adjust_over f 1 endD (Date.mk y m (monthLen y m)) hf (by dsimp only; omega) hfon_d with
    h | ⟨hr, hnle⟩
  · rw [hfon_eq] at h
    exact Or.inl h
  · right
    have hvL : (Date.mk y m (monthLen y m)).Valid :=
      ⟨h1, h2, by dsimp only; omega, by dsimp only; omega⟩
    have hnd : nextDay (Date.mk y m (monthLen y m)) = firstOfNextMonth (Date.mk y m (monthLen y m)) := by
      unfold nextDay
      rw [if_neg (by dsimp only; omega)]
    have htoN := toN_nextDay (Date.mk y m (monthLen y m)) hvL
    rw [hnd, hfon_eq] at htoN
    rw [hr]
    refine ⟨hnle, ?_⟩
    rw [Date.le_def] at hnle ⊢
    omega

theorem adjust_predday (f t : ℕ) (endD : Date) (y m : ℕ) (hf : 1 ≤ f)
    (ht : 2 ≤ t) (ht2 : t ≤ 28)
    (hlen : t ≤ monthLen (firstOfNextMonth (Date.mk y m t)).y (firstOfNextMonth (Date.mk y m t)).m) :
    adjustLoop f t endD
        (Date.mk (firstOfNextMonth (Date.mk y m t)).y (firstOfNextMonth (Date.mk y m t)).m (t - 1)) =
      targetOf (Date.mk y m t) t ∨
      (¬ adjustLoop f t endD
          (Date.mk (firstOfNextMonth (Date.mk y m t)).y (firstOfNextMonth (Date.mk y m t)).m (t - 1)) ≤ endD ∧
        ¬ targetOf (Date.mk y m t) t ≤ endD) := by
  rcases adjust_pred f t endD (firstOfNextMonth (Date.mk y m t)).y
      (firstOfNextMonth (Date.mk y m t)).m hf ht ht2 hlen with h | ⟨hr, hnle⟩
  · exact Or.inl h
  · right
    refine ⟨by rw [hr]; exact hnle, ?_⟩
    have htoN : (targetOf (Date.mk y m t) t).toN =
        (Date.mk (firstOfNextMonth (Date.mk y m t)).y
          (firstOfNextMonth (Date.mk y m t)).m (t - 1)).toN + 1 := by
      unfold targetOf Date.toN
      dsimp only
      omega
    rw [Date.le_def] at hnle ⊢
    omega

/-- One pass of the outer emission loop: from an emission date (day of month
`t`), `+= timedelta(days = 28 or 30)` followed by the adjustment loop lands
exactly on day `t` of the next month, unless the end date intervenes, in
which case both the loop result and the day-`t` date of the next month are past
the end date. -/
theorem step_spec (y m t : ℕ) (endD : Date) (hv : (Date.mk y m t).Valid)
    (ht1 : 1 ≤ t) (ht2 : t ≤ 28) :
    adjustLoop 40 t endD (addDays (if m = 2 then 28 else 30) (Date.mk y m t)) =
      targetOf (Date.mk y m t) t ∨
      (¬ adjustLoop 40 t endD (addDays (if m = 2 then 28 else 30) (Date.mk y m t)) ≤ endD ∧
        ¬ targetOf (Date.mk y m t) t ≤ endD) := by
  obtain ⟨h1, h2, h3, h4⟩ := hv
  dsimp only at h1 h2 h3 h4
  have hFv := Valid_firstOfNextMonth (Date.mk y m t) ⟨h1, h2, h3, h4⟩
  have hFml := monthLen_ge (firstOfNextMonth (Date.mk y m t)).y
    (firstOfNextMonth (Date.mk y m t)).m hFv.1 hFv.2.1
  by_cases hm2 : m = 2
  · rw [if_pos hm2]
    have hL : monthLen y m = 28 ∨ monthLen y m = 29 := by
      rw [hm2]
      show (if isLeap y then 29 else 28) = 28 ∨ (if isLeap y then 29 else 28) = 29
      split
      · exact Or.inr rfl
      · exact Or.inl rfl
    rcases hL with hL | hL
    · have hcross := addDays_cross 28 y m t ⟨h1, h2, h3, h4⟩ (by omega) (by omega)
      have hday : 28 + t - monthLen y m = t := by omega
      rw [hday] at hcross
      rw [hcross]
      exact Or.inl (adjust_stop 40 t endD _ rfl)
    · by_cases ht1' : t = 1
      · subst ht1'
        have hin := addDays_within 28 y m 1 ⟨h1, h2, h3, h4⟩ (by omega)
        have h29 : (1 : ℕ) + 28 = monthLen y m := by omega
        rw [h29] at hin
        rw [hin]
        exact adjust_lastday 40 endD y m h1 h2 (by omega)
      · have hcross := addDays_cross 28 y m t ⟨h1, h2, h3, h4⟩ (by omega) (by omega)
        have hday : 28 + t - monthLen y m = t - 1 := by omega
        rw [hday] at hcross
        rw [hcross]
        exact adjust_predday 40 t endD y m (by omega) (by omega) ht2 (by omega)
  · rw [if_neg hm2]
    have hL : monthLen y m = 30 ∨ monthLen y m = 31 := by
      interval_cases m
      · exact Or.inr rfl
      · exact absurd rfl hm2
      · exact Or.inr rfl
      · exact Or.inl rfl
      · exact Or.inr rfl
      · exact Or.inl rfl
      · exact Or.inr rfl
      · exact Or.inr rfl
      · exact Or.inl rfl
      · exact Or.inr rfl
      · exact Or.inl rfl
      · exact Or.inr rfl
    rcases hL with hL | hL
    · have hcross := addDays_cross 30 y m t ⟨h1, h2, h3, h4⟩ (by omega) (by omega)
      have hday : 30 + t - monthLen y m = t := by omega
      rw [hday] at hcross
      rw [hcross]
      exact Or.inl (adjust_stop 40 t endD _ rfl)
    · by_cases ht1' : t = 1
      · subst ht1'
        have hin := addDays_within 30 y m 1 ⟨h1, h2, h3, h4⟩ (by omega)
        have h31 : (1 : ℕ) + 30 = monthLen y m := by omega
        rw [h31] at hin
        rw [hin]
        exact adjust_lastday 40 endD y m h1 h2 (by omega)
      · have hcross := addDays_cross 30 y m t ⟨h1, h2, h3, h4⟩ (by omega) (by omega)
        have hday : 30 + t - monthLen y m = t - 1 := by omega
        rw [hday] at hcross
        rw [hcross]
        exact adjust_predday 40 t endD y m (by omega) (by omega) ht2 (by omega)

theorem emitLoop_succ (f t : ℕ) (endD c : Date) :
    emitLoop (f + 1) t endD c =
      if c ≤ endD then
        c :: emitLoop f t endD (adjustLoop 40 t endD (addDays (if c.m = 2 then 28 else 30) c))
      else [] := rfl

theorem emitLoop_nil (f t : ℕ) (endD c : Date) (h : ¬ c ≤ endD) :
    emitLoop f t endD c = [] := by
  cases f with
  | zero => rfl
  | succ n => rw [emitLoop_succ, if_neg h]

/-- Full characterisation of the outer emission loop started from an aligned
date `c` (day of month `t`): every emitted date is a valid day-`t` date
in `[c, endD]`, and every month whose day-`t` date lies in `[c, endD]`
receives exactly one emission. -/
theorem emitLoop_spec (f t : ℕ) (endD c : Date) (hv : c.Valid) (hcd : c.d = t)
    (ht1 : 1 ≤ t) (ht2 : t ≤ 28) (hf : endD.toN + 1 ≤ c.toN + f) :
    (∀ d ∈ emitLoop f t endD c, d.Valid ∧ d.d = t ∧ c.toN ≤ d.toN ∧ d ≤ endD) ∧
    (∀ Y M : ℕ, (Date.mk Y M t).Valid →
      (emitLoop f t endD c).countP (fun d => d.y == Y && d.m == M) =
        if c ≤ Date.mk Y M t ∧ Date.mk Y M t ≤ endD then 1 else 0) := by
  induction f generalizing c with
  | zero =>
    constructor
    · intro d hd
      exact absurd hd (List.not_mem_nil d)
    · intro Y M hXv
      show List.countP _ [] = _
      rw [List.countP_nil, if_neg]
      intro ⟨ha, hb⟩
      rw [Date.le_def] at ha hb
      omega
  | succ n ih =>
    have hceta : c = Date.mk c.y c.m t := by
      cases c
      dsimp only at hcd
      rw [hcd]
    by_cases hle : c ≤ endD
    · have hvmk : (Date.mk c.y c.m t).Valid := by rw [← hceta]; exact hv
      have hr := step_spec c.y c.m t endD hvmk ht1 ht2
      rw [← hceta] at hr
      have hTv : (targetOf c t).Valid := Valid_targetOf c t hv ht1 ht2
      have hTd : (targetOf c t).d = t := rfl
      have hTN : (targetOf c t).toN = c.toN + monthLen c.y c.m := by
        have h0 := toN_targetOf c t hv
        rw [← hceta] at h0
        exact h0
      have hml := monthLen_ge c.y c.m hv.1 hv.2.1
      rw [emitLoop_succ, if_pos hle]
      rcases hr with hstep | ⟨hrn, hTn⟩
      · rw [hstep]
        obtain ⟨ihMem, ihCount⟩ := ih (targetOf c t) hTv hTd (by omega)
        constructor
        · intro d hd
          rcases List.mem_cons.mp hd with hdc | hdr
          · subst hdc
            exact ⟨hv, hcd, le_refl _, hle⟩
          · obtain ⟨hdv, hdd, hdN, hde⟩ := ihMem d hdr
            exact ⟨hdv, hdd, by omega, hde⟩
        · intro Y M hXv
          show List.countP _ (c :: _) = _
          rw [List.countP_cons]
          rw [ihCount Y M hXv]
          by_cases hcx : Y = c.y ∧ M = c.m
          · have hXc : Date.mk Y M t = c := by
              rw [hcx.1, hcx.2, ← hceta]
            have hpc : (c.y == Y && c.m == M) = true := by
              simp only [Bool.and_eq_true, beq_iff_eq]
              exact ⟨hcx.1.symm, hcx.2.symm⟩
            rw [hXc, hpc]
            have h0 : (if targetOf c t ≤ c ∧ c ≤ endD then (1 : ℕ) else 0) = 0 := by
              rw [if_neg]
              intro ⟨ha, _⟩
              rw [Date.le_def] at ha
              omega
            have hcc : c ≤ c ∧ c ≤ endD := ⟨by show c.toN ≤ c.toN; exact Nat.le_refl _, hle⟩
            rw [h0, if_pos hcc]
            simp
          · have hpc : (c.y == Y && c.m == M) = false := by
              rcases not_and_or.mp hcx with h' | h'
              · have hb : (c.y == Y) = false := by
                  simp only [beq_eq_false_iff_ne, ne_eq]
                  exact fun he => h' he.symm
                rw [hb, Bool.false_and]
              · have hb : (c.m == M) = false := by
                  simp only [beq_eq_false_iff_ne, ne_eq]
                  exact fun he => h' he.symm
                rw [hb, Bool.and_false]
            rw [hpc]
            have hXd : (Date.mk Y M t).d = t := rfl
            have hiff : (targetOf c t ≤ Date.mk Y M t ∧ Date.mk Y M t ≤ endD) ↔
                (c ≤ Date.mk Y M t ∧ Date.mk Y M t ≤ endD) := by
              constructor
              · intro ⟨ha, hb⟩
                refine ⟨?_, hb⟩
                rw [Date.le_def] at ha ⊢
                omega
              · intro ⟨ha, hb⟩
                refine ⟨?_, hb⟩
                have hne : ¬((Date.mk Y M t).y = c.y ∧ (Date.mk Y M t).m = c.m) := by
                  intro ⟨e1, e2⟩
                  exact hcx ⟨e1, e2⟩
                have hpair := pair_lt_of_le c (Date.mk Y M t) hv hXv ha hne
                exact targetOf_min c (Date.mk Y M t) t hv hXv ht1 ht2 hXd hpair
            by_cases hcond : c ≤ Date.mk Y M t ∧ Date.mk Y M t ≤ endD
            · rw [if_pos (hiff.mpr hcond), if_pos hcond]
              simp
            · rw [if_neg (fun hT => hcond (hiff.mp hT)), if_neg hcond]
              simp
      · rw [emitLoop_nil n t endD _ hrn]
        constructor
        · intro d hd
          rcases List.mem_cons.mp hd with hdc | hdr
          · subst hdc
            exact ⟨hv, hcd, le_refl _, hle⟩
          · exact absurd hdr (List.not_mem_nil d)
        · intro Y M hXv
          show List.countP _ (c :: []) = _
          rw [List.countP_cons, List.countP_nil]
          by_cases hcx : Y = c.y ∧ M = c.m
          · have hXc : Date.mk Y M t = c := by
              rw [hcx.1, hcx.2, ← hceta]
            have hpc : (c.y == Y && c.m == M) = true := by
              simp only [Bool.and_eq_true, beq_iff_eq]
              exact ⟨hcx.1.symm, hcx.2.symm⟩
            have hcc : c ≤ c ∧ c ≤ endD := ⟨by show c.toN ≤ c.toN; exact Nat.le_refl _, hle⟩
            rw [hXc, hpc, if_pos hcc]
            simp
          · have hpc : (c.y == Y && c.m == M) = false := by
              rcases not_and_or.mp hcx with h' | h'
              · have hb : (c.y == Y) = false := by
                  simp only [beq_eq_false_iff_ne, ne_eq]
                  exact fun he => h' he.symm
                rw [hb, Bool.false_and]
              · have hb : (c.m == M) = false := by
                  simp only [beq_eq_false_iff_ne, ne_eq]
                  exact fun he => h' he.symm
                rw [hb, Bool.and_false]
            rw [hpc]
            have h0 : (if c ≤ Date.mk Y M t ∧ Date.mk Y M t ≤ endD then (1 : ℕ) else 0) = 0 := by
              rw [if_neg]
              intro ⟨ha, hb⟩
              have hne : ¬((Date.mk Y M t).y = c.y ∧ (Date.mk Y M t).m = c.m) := by
                intro ⟨e1, e2⟩
                exact hcx ⟨e1, e2⟩
              have hpair := pair_lt_of_le c (Date.mk Y M t) hv hXv ha hne
              have hmin := targetOf_min c (Date.mk Y M t) t hv hXv ht1 ht2 rfl hpair
              rw [Date.le_def] at hb hTn
              omega
            rw [h0]
            simp
    · rw [emitLoop_nil (n + 1) t endD c hle]
      constructor
      · intro d hd
        exact absurd hd (List.not_mem_nil d)
      · intro Y M hXv
        show List.countP _ [] = _
        rw [List.countP_nil, if_neg]
        intro ⟨ha, hb⟩
        rw [Date.le_def] at ha hb
        exact hle (by rw [Date.le_def]; omega)

/-! ## Projection lemmas for `generate_transaction` -/

theorem gt_date (cid cname m mcc : String) (date : Date) (a : ℚ) (card : CardData)
    (dr : TxDraws) :
    (generate_transaction cid cname m mcc date a card dr).transaction_date = date := rfl

theorem gt_mcc (cid cname m mcc : String) (date : Date) (a : ℚ) (card : CardData)
    (dr : TxDraws) :
    (generate_transaction cid cname m mcc date a card dr).merchant_category_code = mcc := rfl

theorem gt_merchant (cid cname m mcc : String) (date : Date) (a : ℚ) (card : CardData)
    (dr : TxDraws) :
    (generate_transaction cid cname m mcc date a card dr).merchant_name = m := rfl

theorem gt_type (cid cname m mcc : String) (date : Date) (a : ℚ) (card : CardData)
    (dr : TxDraws) :
    (generate_transaction cid cname m mcc date a card dr).transaction_type =
      if dr.type_draw < 1/20 then "Refund" else "Sale" := rfl

theorem gt_status (cid cname m mcc : String) (date : Date) (a : ℚ) (card : CardData)
    (dr : TxDraws) :
    (generate_transaction cid cname m mcc date a card dr).transaction_status =
      if dr.decline_draw < 3/100 then "Declined"
      else if dr.pending_draw < 1/100 then "Pending"
      else "Approved" := rfl

theorem gt_amount_sign (cid cname m mcc : String) (date : Date) (a : ℚ) (card : CardData)
    (dr : TxDraws) :
    (generate_transaction cid cname m mcc date a card dr).transaction_amount =
      if (generate_transaction cid cname m mcc date a card dr).transaction_type = "Sale"
      then a else -a := rfl

theorem gt_fees (cid cname m mcc : String) (date : Date) (a : ℚ) (card : CardData)
    (dr : TxDraws) :
    (generate_transaction cid cname m mcc date a card dr).fees =
      if (generate_transaction cid cname m mcc date a card dr).transaction_status = "Approved"
      then round2 (a * dr.fee_rate) else 0 := rfl

theorem gt_net (cid cname m mcc : String) (date : Date) (a : ℚ) (card : CardData)
    (dr : TxDraws) :
    (generate_transaction cid cname m mcc date a card dr).net_amount =
      if (generate_transaction cid cname m mcc date a card dr).transaction_status = "Approved"
      then round2 (a - round2 (a * dr.fee_rate)) else 0 := rfl

theorem gt_settlement (cid cname m mcc : String) (date : Date) (a : ℚ) (card : CardData)
    (dr : TxDraws) :
    (generate_transaction cid cname m mcc date a card dr).settlement_date =
      if (generate_transaction cid cname m mcc date a card dr).transaction_status = "Approved"
      then some (addDays dr.settle_approved date)
      else if (generate_transaction cid cname m mcc date a card dr).transaction_status = "Pending"
      then some (addDays dr.settle_pending date)
      else none := rfl

theorem gt_accounting (cid cname m mcc : String) (date : Date) (a : ℚ) (card : CardData)
    (dr : TxDraws) :
    (generate_transaction cid cname m mcc date a card dr).accounting_date =
      (generate_transaction cid cname m mcc date a card dr).settlement_date := rfl

theorem gt_batch (cid cname m mcc : String) (date : Date) (a : ℚ) (card : CardData)
    (dr : TxDraws) :
    (generate_transaction cid cname m mcc date a card dr).settlement_batch_number =
      if (generate_transaction cid cname m mcc date a card dr).settlement_date.isSome
      then some dr.batch_num else none := rfl

/-- Claim C1: for every generated transaction record — organic (assembled by
`generate_customer_transactions` from `select_merchant_and_mcc`) or recurring
(assembled by `generate_recurring_transactions` from a profile entry built by
`create_spending_profile`) — applying `assign_mcc_to_merchant` to the stored
merchant name yields exactly the stored `merchant_category_code`: the organic
path re-derives the code from the chosen merchant, and the code of the recurring entry
was derived from its merchant by the same function at
profile-construction time. -/
theorem mcc_consistency_c1
    (customer_id customer_name : String) (merchants : List String)
    (selected_mcc merchant_draw gas_pick grocery_pick : String)
    (ap : AmountProfile) (normal_draw : ℚ) (table_draw : String → ℚ)
    (fallback_draw boost_draw : ℚ) (now_weekday : ℕ) (current_date : Date)
    (card : CardData) (dr dr' : TxDraws)
    (merchant : String) (amount : ℚ) (day_of_month : ℕ) (date' : Date) :
    ((organic_transaction customer_id customer_name merchants ap selected_mcc merchant_draw
        gas_pick grocery_pick normal_draw table_draw fallback_draw boost_draw now_weekday
        current_date card dr).merchant_category_code =
      assign_mcc_to_merchant
        ((organic_transaction customer_id customer_name merchants ap selected_mcc merchant_draw
          gas_pick grocery_pick normal_draw table_draw fallback_draw boost_draw now_weekday
          current_date card dr).merchant_name)) ∧
    ((generate_transaction customer_id customer_name
        (mkRecurringEntry merchant amount day_of_month).merchant
        (mkRecurringEntry merchant amount day_of_month).mcc
        date' (mkRecurringEntry merchant amount day_of_month).amount card dr').merchant_category_code =
      assign_mcc_to_merchant
        ((generate_transaction customer_id customer_name
          (mkRecurringEntry merchant amount day_of_month).merchant
          (mkRecurringEntry merchant amount day_of_month).mcc
          date' (mkRecurringEntry merchant amount day_of_month).amount card dr').merchant_name)) :=
  ⟨rfl, rfl⟩

/-- Claim C3: in every generated transaction record, when the status is not
`"Approved"` the stored fees and net amount are both `0`; when the status is
`"Approved"`, the net amount is `round(amount - fees, 2)` and the fees are
between 1.5% and 3.5% of the amount up to the `round(..., 2)` rounding
error of `1/200`. -/
theorem fees_net_c3 (cid cname m mcc : String) (date : Date) (amount : ℚ)
    (card : CardData) (dr : TxDraws) (hdr : dr.Valid) (hamt : 0 ≤ amount) :
    ((generate_transaction cid cname m mcc date amount card dr).transaction_status ≠ "Approved" →
      (generate_transaction cid cname m mcc date amount card dr).fees = 0 ∧
      (generate_transaction cid cname m mcc date amount card dr).net_amount = 0) ∧
    ((generate_transaction cid cname m mcc date amount card dr).transaction_status = "Approved" →
      (generate_transaction cid cname m mcc date amount card dr).net_amount =
        round2 (amount - (generate_transaction cid cname m mcc date amount card dr).fees) ∧
      3/200 * amount - 1/200 ≤ (generate_transaction cid cname m mcc date amount card dr).fees ∧
      (generate_transaction cid cname m mcc date amount card dr).fees ≤
        7/200 * amount + 1/200) := by
  obtain ⟨_, _, _, _, _, _, _, _, _, _, hrlo, hrhi⟩ := hdr
  constructor
  · intro hns
    rw [gt_fees, gt_net, if_neg hns, if_neg hns]
    exact ⟨rfl, rfl⟩
  · intro hsa
    rw [gt_net, gt_fees, if_pos hsa, if_pos hsa]
    refine ⟨rfl, ?_, ?_⟩
    · have h1 := le_round2 (amount * dr.fee_rate)
      have hx : 3/200 * amount ≤ dr.fee_rate * amount :=
        mul_le_mul_of_nonneg_right hrlo hamt
      have hc : amount * dr.fee_rate = dr.fee_rate * amount := mul_comm _ _
      linarith
    · have h2 := round2_le (amount * dr.fee_rate)
      have hx : dr.fee_rate * amount ≤ 7/200 * amount :=
        mul_le_mul_of_nonneg_right hrhi hamt
      have hc : amount * dr.fee_rate = dr.fee_rate * amount := mul_comm _ _
      linarith

/-- Witness for C3 at a concrete input. -/
theorem fees_net_c3_witness :
    (sampleDraws.Valid ∧ (0 : ℚ) ≤ 50) ∧
    (((generate_transaction "CUST000001" "A" "Shell" "5542" (Date.mk 1 1 5) 50 sampleCard
        sampleDraws).transaction_status ≠ "Approved" →
      (generate_transaction "CUST000001" "A" "Shell" "5542" (Date.mk 1 1 5) 50 sampleCard
        sampleDraws).fees = 0 ∧
      (generate_transaction "CUST000001" "A" "Shell" "5542" (Date.mk 1 1 5) 50 sampleCard
        sampleDraws).net_amount = 0) ∧
    ((generate_transaction "CUST000001" "A" "Shell" "5542" (Date.mk 1 1 5) 50 sampleCard
        sampleDraws).transaction_status = "Approved" →
      (generate_transaction "CUST000001" "A" "Shell" "5542" (Date.mk 1 1 5) 50 sampleCard
        sampleDraws).net_amount =
        round2 (50 - (generate_transaction "CUST000001" "A" "Shell" "5542" (Date.mk 1 1 5) 50
          sampleCard sampleDraws).fees) ∧
      3/200 * 50 - 1/200 ≤ (generate_transaction "CUST000001" "A" "Shell" "5542" (Date.mk 1 1 5)
        50 sampleCard sampleDraws).fees ∧
      (generate_transaction "CUST000001" "A" "Shell" "5542" (Date.mk 1 1 5) 50 sampleCard
        sampleDraws).fees ≤ 7/200 * 50 + 1/200)) :=
  ⟨⟨by norm_num [TxDraws.Valid, sampleDraws], by norm_num⟩,
    fees_net_c3 "CUST000001" "A" "Shell" "5542" (Date.mk 1 1 5) 50 sampleCard sampleDraws
      (by norm_num [TxDraws.Valid, sampleDraws]) (by norm_num)⟩

/-- Claim C5: a Declined transaction has no settlement date, no accounting
date and no settlement batch number; an Approved or Pending transaction has
a settlement date strictly after the transaction date and at most 7 days
after it (Approved: 1-3 days; Pending: 3-7 days). -/
theorem settlement_c5 (cid cname m mcc : String) (date : Date) (amount : ℚ)
    (card : CardData) (dr : TxDraws) (hdr : dr.Valid) (hdv : date.Valid) :
    ((generate_transaction cid cname m mcc date amount card dr).transaction_status = "Declined" →
      (generate_transaction cid cname m mcc date amount card dr).settlement_date = none ∧
      (generate_transaction cid cname m mcc date amount card dr).accounting_date = none ∧
      (generate_transaction cid cname m mcc date amount card dr).settlement_batch_number = none) ∧
    ((generate_transaction cid cname m mcc date amount card dr).transaction_status = "Approved" ∨
      (generate_transaction cid cname m mcc date amount card dr).transaction_status = "Pending" →
      ∃ s : Date,
        (generate_transaction cid cname m mcc date amount card dr).settlement_date = some s ∧
        date.toN < s.toN ∧ s.toN ≤ date.toN + 7) := by
  obtain ⟨_, _, _, _, _, _, hsa1, hsa2, hsp1, hsp2, _, _⟩ := hdr
  constructor
  · intro hds
    have h1 : (generate_transaction cid cname m mcc date amount card dr).transaction_status ≠
        "Approved" := by rw [hds]; decide
    have h2 : (generate_transaction cid cname m mcc date amount card dr).transaction_status ≠
        "Pending" := by rw [hds]; decide
    have hsd : (generate_transaction cid cname m mcc date amount card dr).settlement_date =
        none := by rw [gt_settlement, if_neg h1, if_neg h2]
    refine ⟨hsd, ?_, ?_⟩
    · rw [gt_accounting, hsd]
    · rw [gt_batch, hsd]
      simp
  · intro hds
    rcases hds with hap | hpe
    · refine ⟨addDays dr.settle_approved date, ?_, ?_, ?_⟩
      · rw [gt_settlement, if_pos hap]
      · rw [toN_addDays _ _ hdv]
        omega
      · rw [toN_addDays _ _ hdv]
        omega
    · have hne : (generate_transaction cid cname m mcc date amount card dr).transaction_status ≠
          "Approved" := by rw [hpe]; decide
      refine ⟨addDays dr.settle_pending date, ?_, ?_, ?_⟩
      · rw [gt_settlement, if_neg hne, if_pos hpe]
      · rw [toN_addDays _ _ hdv]
        omega
      · rw [toN_addDays _ _ hdv]
        omega

/-- Witness for C5 at a concrete input. -/
theorem settlement_c5_witness :
    (sampleDraws.Valid ∧ (Date.mk 1 1 5).Valid) ∧
    (((generate_transaction "CUST000001" "A" "Shell" "5542" (Date.mk 1 1 5) 50 sampleCard
        sampleDraws).transaction_status = "Declined" →
      (generate_transaction "CUST000001" "A" "Shell" "5542" (Date.mk 1 1 5) 50 sampleCard
        sampleDraws).settlement_date = none ∧
      (generate_transaction "CUST000001" "A" "Shell" "5542" (Date.mk 1 1 5) 50 sampleCard
        sampleDraws).accounting_date = none ∧
      (generate_transaction "CUST000001" "A" "Shell" "5542" (Date.mk 1 1 5) 50 sampleCard
        sampleDraws).settlement_batch_number = none) ∧
    ((generate_transaction "CUST000001" "A" "Shell" "5542" (Date.mk 1 1 5) 50 sampleCard
        sampleDraws).transaction_status = "Approved" ∨
      (generate_transaction "CUST000001" "A" "Shell" "5542" (Date.mk 1 1 5) 50 sampleCard
        sampleDraws).transaction_status = "Pending" →
      ∃ s : Date,
        (generate_transaction "CUST000001" "A" "Shell" "5542" (Date.mk 1 1 5) 50 sampleCard
          sampleDraws).settlement_date = some s ∧
        (Date.mk 1 1 5).toN < s.toN ∧ s.toN ≤ (Date.mk 1 1 5).toN + 7)) :=
  ⟨⟨by norm_num [TxDraws.Valid, sampleDraws], by decide⟩,
    settlement_c5 "CUST000001" "A" "Shell" "5542" (Date.mk 1 1 5) 50 sampleCard sampleDraws
      (by norm_num [TxDraws.Valid, sampleDraws]) (by decide)⟩

/-- Claim C10: for an Approved Refund, the stored `transaction_amount` is the
negated amount, while fees and net amount are computed from the positive
magnitude before negation: the net amount equals `round(amount - fees, 2)`,
is strictly positive, and therefore differs from
`round(transaction_amount - fees, 2)`. -/
theorem refund_net_c10 (cid cname m mcc : String) (date : Date) (amount : ℚ)
    (card : CardData) (dr : TxDraws) (hdr : dr.Valid) (hamt : 1/10 ≤ amount)
    (hrefund : (generate_transaction cid cname m mcc date amount card dr).transaction_type =
      "Refund")
    (happr : (generate_transaction cid cname m mcc date amount card dr).transaction_status =
      "Approved") :
    (generate_transaction cid cname m mcc date amount card dr).transaction_amount = -amount ∧
    (generate_transaction cid cname m mcc date amount card dr).net_amount =
      round2 (amount - (generate_transaction cid cname m mcc date amount card dr).fees) ∧
    0 < (generate_transaction cid cname m mcc date amount card dr).net_amount ∧
    (generate_transaction cid cname m mcc date amount card dr).net_amount ≠
      round2 ((generate_transaction cid cname m mcc date amount card dr).transaction_amount -
        (generate_transaction cid cname m mcc date amount card dr).fees) := by
  obtain ⟨_, _, _, _, _, _, _, _, _, _, hrlo, hrhi⟩ := hdr
  have hneS : (generate_transaction cid cname m mcc date amount card dr).transaction_type ≠
      "Sale" := by rw [hrefund]; decide
  have hamt' : (generate_transaction cid cname m mcc date amount card dr).transaction_amount =
      -amount := by rw [gt_amount_sign, if_neg hneS]
  have hfees : (generate_transaction cid cname m mcc date amount card dr).fees =
      round2 (amount * dr.fee_rate) := by rw [gt_fees, if_pos happr]
  have hnet : (generate_transaction cid cname m mcc date amount card dr).net_amount =
      round2 (amount - round2 (amount * dr.fee_rate)) := by rw [gt_net, if_pos happr]
  have hb1 := le_round2 (amount * dr.fee_rate)
  have hb2 := round2_le (amount * dr.fee_rate)
  have hxlo : 3/200 * amount ≤ dr.fee_rate * amount :=
    mul_le_mul_of_nonneg_right hrlo (by linarith)
  have hxhi : dr.fee_rate * amount ≤ 7/200 * amount :=
    mul_le_mul_of_nonneg_right hrhi (by linarith)
  have hc : amount * dr.fee_rate = dr.fee_rate * amount := mul_comm _ _
  have hb3 := le_round2 (amount - round2 (amount * dr.fee_rate))
  have hb4 := round2_le (-amount - round2 (amount * dr.fee_rate))
  refine ⟨hamt', ?_, ?_, ?_⟩
  · rw [hnet, hfees]
  · rw [hnet]
    linarith
  · rw [hnet, hamt', hfees]
    intro heq
    have hlhs : 0 < round2 (amount - round2 (amount * dr.fee_rate)) := by linarith
    have hrhs : round2 (-amount - round2 (amount * dr.fee_rate)) < 0 := by linarith
    rw [heq] at hlhs
    linarith

/-- Witness for C10 at a concrete input (a Refund draw that is Approved). -/
theorem refund_net_c10_witness :
    (refundDraws.Valid ∧ (1 : ℚ)/10 ≤ 1599/100 ∧
      (generate_transaction "CUST000001" "A" "Netflix" "4816" (Date.mk 1 1 15) (1599/100)
        sampleCard refundDraws).transaction_type = "Refund" ∧
      (generate_transaction "CUST000001" "A" "Netflix" "4816" (Date.mk 1 1 15) (1599/100)
        sampleCard refundDraws).transaction_status = "Approved") ∧
    ((generate_transaction "CUST000001" "A" "Netflix" "4816" (Date.mk 1 1 15) (1599/100)
        sampleCard refundDraws).transaction_amount = -(1599/100) ∧
      (generate_transaction "CUST000001" "A" "Netflix" "4816" (Date.mk 1 1 15) (1599/100)
        sampleCard refundDraws).net_amount =
        round2 (1599/100 - (generate_transaction "CUST000001" "A" "Netflix" "4816"
          (Date.mk 1 1 15) (1599/100) sampleCard refundDraws).fees) ∧
      0 < (generate_transaction "CUST000001" "A" "Netflix" "4816" (Date.mk 1 1 15) (1599/100)
        sampleCard refundDraws).net_amount ∧
      (generate_transaction "CUST000001" "A" "Netflix" "4816" (Date.mk 1 1 15) (1599/100)
        sampleCard refundDraws).net_amount ≠
        round2 ((generate_transaction "CUST000001" "A" "Netflix" "4816" (Date.mk 1 1 15)
          (1599/100) sampleCard refundDraws).transaction_amount -
          (generate_transaction "CUST000001" "A" "Netflix" "4816" (Date.mk 1 1 15) (1599/100)
            sampleCard refundDraws).fees)) :=
  ⟨⟨by norm_num [TxDraws.Valid, refundDraws], by norm_num,
      by rw [gt_type]; norm_num [refundDraws],
      by rw [gt_status]; norm_num [refundDraws]⟩,
    refund_net_c10 "CUST000001" "A" "Netflix" "4816" (Date.mk 1 1 15) (1599/100) sampleCard
      refundDraws (by norm_num [TxDraws.Valid, refundDraws]) (by norm_num)
      (by rw [gt_type]; norm_num [refundDraws])
      (by rw [gt_status]; norm_num [refundDraws])⟩

/-- Claim C2 (refuted — code bug): `generate_transaction_amount` never sees
the date of the transaction; its Friday/Saturday ×[1.1, 1.4] boost is keyed on
`datetime.datetime.now().weekday()`, the wall-clock day of the generation
run, applied uniformly to every generated day.  First conjunct: the stored
amount of an organic transaction is the same for any two transaction dates.
Rest: concretely, a transaction dated Friday 0001-01-05 (`weekday = 4`)
generated during a Monday run (`now_weekday = 0`), with clamped normal draw
50 and category multiplier 1 (boost draw 1.2 available), gets amount 50
with no boost applied, while the claim requires `round2 (50 * b)` for a
boost `b ∈ [1.1, 1.4]` — which never equals the actual amount 50. -/
theorem weekend_boost_c2 :
    (∀ (customer_id customer_name : String) (merchants : List String) (ap : AmountProfile)
      (selected_mcc merchant_draw gas_pick grocery_pick : String) (normal_draw : ℚ)
      (table_draw : String → ℚ) (fallback_draw boost_draw : ℚ) (now_weekday : ℕ)
      (card : CardData) (dr : TxDraws) (d1 d2 : Date),
      (organic_transaction customer_id customer_name merchants ap selected_mcc merchant_draw
        gas_pick grocery_pick normal_draw table_draw fallback_draw boost_draw now_weekday
        d1 card dr).transaction_amount =
      (organic_transaction customer_id customer_name merchants ap selected_mcc merchant_draw
        gas_pick grocery_pick normal_draw table_draw fallback_draw boost_draw now_weekday
        d2 card dr).transaction_amount) ∧
    (Date.mk 1 1 5).weekday = 4 ∧
    generate_transaction_amount ⟨1, 2000, 50, 20⟩ "5999" 50 (fun _ => 1) 1 (6/5) 0 = 50 ∧
    (∀ b : ℚ, 11/10 ≤ b → b ≤ 7/5 →
      round2 (50 * b) ≠
        generate_transaction_amount ⟨1, 2000, 50, 20⟩ "5999" 50 (fun _ => 1) 1 (6/5) 0) := by
  have h50 : generate_transaction_amount ⟨1, 2000, 50, 20⟩ "5999" 50 (fun _ => 1) 1 (6/5) 0 =
      50 := by
    simp only [generate_transaction_amount]
    rw [if_neg (by decide : ¬ (mccMultKeys.contains "5999" = true))]
    rw [if_neg (by decide : ¬ ((0 : ℕ) = 4 ∨ (0 : ℕ) = 5))]
    rw [inf_eq_left.mpr (by norm_num : (50 : ℚ) ≤ 2000)]
    rw [sup_eq_right.mpr (by norm_num : (1 : ℚ) ≤ 50)]
    norm_num [round2]
  refine ⟨?_, by decide, h50, ?_⟩
  · intro customer_id customer_name merchants ap selected_mcc merchant_draw gas_pick
      grocery_pick normal_draw table_draw fallback_draw boost_draw now_weekday card dr d1 d2
    rfl
  · intro b hb1 hb2 heq
    rw [h50] at heq
    have hle := le_round2 (50 * b)
    have h55 : (55 : ℚ) ≤ 50 * b := by linarith
    rw [heq] at hle
    linarith

/-- Witness for the quantified part of the C2 refutation, at boost 1.2. -/
theorem weekend_boost_c2_witness :
    (11/10 ≤ (6/5 : ℚ) ∧ (6/5 : ℚ) ≤ 7/5) ∧
    round2 (50 * (6/5)) ≠
      generate_transaction_amount ⟨1, 2000, 50, 20⟩ "5999" 50 (fun _ => 1) 1 (6/5) 0 :=
  ⟨⟨by norm_num, by norm_num⟩, weekend_boost_c2.2.2.2 (6/5) (by norm_num) (by norm_num)⟩

theorem grtAux_mem (cid cname : String) (e : RecurringEntry) (card : CardData)
    (drs : ℕ → TxDraws) (k : ℕ) (dates : List Date) (tx : Transaction)
    (h : tx ∈ grtAux cid cname e card drs k dates) :
    ∃ d ∈ dates, ∃ j : ℕ,
      tx = generate_transaction cid cname e.merchant e.mcc d e.amount card (drs j) := by
  induction dates generalizing k with
  | nil => exact absurd h (List.not_mem_nil tx)
  | cons a l ih =>
    simp only [grtAux] at h
    rcases List.mem_cons.mp h with h1 | h2
    · exact ⟨a, List.mem_cons_self a l, k, h1⟩
    · obtain ⟨d, hd, j, hj⟩ := ih (k + 1) h2
      exact ⟨d, List.mem_cons_of_mem a hd, j, hj⟩

theorem grtAux_countP (cid cname : String) (e : RecurringEntry) (card : CardData)
    (drs : ℕ → TxDraws) (k : ℕ) (dates : List Date) (Y M : ℕ) :
    (grtAux cid cname e card drs k dates).countP
        (fun tx => tx.transaction_date.y == Y && tx.transaction_date.m == M) =
      dates.countP (fun d => d.y == Y && d.m == M) := by
  induction dates generalizing k with
  | nil => rfl
  | cons a l ih =>
    simp only [grtAux, List.countP_cons, ih (k + 1)]
    rfl

set_option maxRecDepth 8000 in
/-- Counterexample to claim C4 as stated: with a type draw in the 5% Refund
band, a recurring Netflix charge of 15.99 is stored with
`transaction_amount = -15.99`, not 15.99. -/
theorem recurring_amount_c4_counterexample :
    ∃ tx ∈ generate_recurring_transactions "CUST000001" "A"
        (mkRecurringEntry "Netflix" (1599/100) 15) (Date.mk 1 1 1) (Date.mk 1 3 31)
        sampleCard (fun _ => refundDraws) 64 10,
      tx.transaction_amount ≠ (1599/100 : ℚ) := by
  have hs : recurringSchedule 64 10 15 (Date.mk 1 1 1) (Date.mk 1 3 31) =
      [Date.mk 1 1 15, Date.mk 1 2 15, Date.mk 1 3 15] := by decide
  refine ⟨generate_transaction "CUST000001" "A" "Netflix" (assign_mcc_to_merchant "Netflix")
    (Date.mk 1 1 15) (1599/100) sampleCard refundDraws, ?_, ?_⟩
  · show _ ∈ grtAux "CUST000001" "A" (mkRecurringEntry "Netflix" (1599/100) 15) sampleCard
      (fun _ => refundDraws) 0 (recurringSchedule 64 10 15 (Date.mk 1 1 1) (Date.mk 1 3 31))
    rw [hs]
    simp only [grtAux]
    exact List.mem_cons_self _ _
  · rw [gt_amount_sign, gt_type,
      if_pos (show refundDraws.type_draw < 1/20 by norm_num [refundDraws]),
      if_neg (by decide : ¬ ("Refund" : String) = "Sale")]
    norm_num

/-- Claim C4 (amended): for a recurring entry with day-of-month `t ∈ [1,28]`
and a closed date interval, the synthesizer emits exactly one recurring
transaction per calendar month whose day-`t` date falls inside the interval,
each dated exactly on day `t`; every emitted record is built from the
amount of the entry with no category or weekday multiplier applied, so its
stored `transaction_amount` equals the amount of the entry when the type draw
gives `Sale` and its negation when it gives `Refund`. -/
theorem recurring_schedule_c4 (customer_id customer_name merchant : String) (amount : ℚ)
    (t : ℕ) (startD endD : Date) (card : CardData) (drs : ℕ → TxDraws)
    (fuelInit fuelOuter : ℕ) (hv : startD.Valid) (ht1 : 1 ≤ t) (ht2 : t ≤ 28)
    (hfi : 64 ≤ fuelInit) (hfo : endD.toN + 1 ≤ startD.toN + fuelOuter) :
    (∀ tx ∈ generate_recurring_transactions customer_id customer_name
        (mkRecurringEntry merchant amount t) startD endD card drs fuelInit fuelOuter,
      tx.transaction_date.d = t ∧ startD ≤ tx.transaction_date ∧ tx.transaction_date ≤ endD ∧
      (tx.transaction_type = "Sale" → tx.transaction_amount = amount) ∧
      (tx.transaction_type = "Refund" → tx.transaction_amount = -amount)) ∧
    (∀ Y M : ℕ, (Date.mk Y M t).Valid →
      (generate_recurring_transactions customer_id customer_name
          (mkRecurringEntry merchant amount t) startD endD card drs fuelInit fuelOuter).countP
          (fun tx => tx.transaction_date.y == Y && tx.transaction_date.m == M) =
        if startD ≤ Date.mk Y M t ∧ Date.mk Y M t ≤ endD then 1 else 0) := by
  obtain ⟨hav, had, haN, hamin⟩ := firstAligned_spec fuelInit t startD hv ht1 ht2 hfi
  obtain ⟨hmem, hcount⟩ := emitLoop_spec fuelOuter t endD (firstAligned fuelInit t startD)
    hav had ht1 ht2 (by omega)
  constructor
  · intro tx htx
    obtain ⟨d, hd, j, hj⟩ := grtAux_mem customer_id customer_name
      (mkRecurringEntry merchant amount t) card drs 0
      (emitLoop fuelOuter t endD (firstAligned fuelInit t startD)) tx htx
    obtain ⟨hdv, hdd, hdN, hde⟩ := hmem d hd
    subst hj
    refine ⟨?_, ?_, ?_, ?_, ?_⟩
    · rw [gt_date]
      exact hdd
    · rw [gt_date, Date.le_def]
      omega
    · rw [gt_date]
      exact hde
    · intro hS
      rw [gt_amount_sign, hS, if_pos rfl]
      rfl
    · intro hR
      have hne : (generate_transaction customer_id customer_name
          (mkRecurringEntry merchant amount t).merchant (mkRecurringEntry merchant amount t).mcc
          d (mkRecurringEntry merchant amount t).amount card (drs j)).transaction_type ≠
          "Sale" := by
        rw [hR]
        decide
      rw [gt_amount_sign, if_neg hne]
      rfl
  · intro Y M hXv
    show (grtAux customer_id customer_name (mkRecurringEntry merchant amount t) card drs 0
        (emitLoop fuelOuter t endD (firstAligned fuelInit t startD))).countP
        (fun tx => tx.transaction_date.y == Y && tx.transaction_date.m == M) = _
    rw [grtAux_countP, hcount Y M hXv]
    by_cases hcond : startD ≤ Date.mk Y M t ∧ Date.mk Y M t ≤ endD
    · rw [if_pos hcond, if_pos ⟨hamin (Date.mk Y M t) hXv rfl hcond.1, hcond.2⟩]
    · rw [if_neg hcond, if_neg]
      intro ⟨ha, hb⟩
      refine hcond ⟨?_, hb⟩
      rw [Date.le_def] at ha ⊢
      omega

/-- Witness for the amended C4 at a concrete input (entry day 15, interval
0001-01-20 to 0001-07-18). -/
theorem recurring_schedule_c4_witness :
    ((Date.mk 1 1 20).Valid ∧ 1 ≤ 15 ∧ 15 ≤ 28 ∧ 64 ≤ 64 ∧
      (Date.mk 1 7 18).toN + 1 ≤ (Date.mk 1 1 20).toN + 200) ∧
    ((∀ tx ∈ generate_recurring_transactions "CUST000001" "A"
        (mkRecurringEntry "Netflix" (1599/100) 15) (Date.mk 1 1 20) (Date.mk 1 7 18)
        sampleCard (fun _ => sampleDraws) 64 200,
      tx.transaction_date.d = 15 ∧ Date.mk 1 1 20 ≤ tx.transaction_date ∧
      tx.transaction_date ≤ Date.mk 1 7 18 ∧
      (tx.transaction_type = "Sale" → tx.transaction_amount = 1599/100) ∧
      (tx.transaction_type = "Refund" → tx.transaction_amount = -(1599/100))) ∧
    (∀ Y M : ℕ, (Date.mk Y M 15).Valid →
      (generate_recurring_transactions "CUST000001" "A"
          (mkRecurringEntry "Netflix" (1599/100) 15) (Date.mk 1 1 20) (Date.mk 1 7 18)
          sampleCard (fun _ => sampleDraws) 64 200).countP
          (fun tx => tx.transaction_date.y == Y && tx.transaction_date.m == M) =
        if Date.mk 1 1 20 ≤ Date.mk Y M 15 ∧ Date.mk Y M 15 ≤ Date.mk 1 7 18 then 1
        else 0)) :=
  ⟨⟨by decide, by norm_num, by norm_num, by norm_num, by decide⟩,
    recurring_schedule_c4 "CUST000001" "A" "Netflix" (1599/100) 15 (Date.mk 1 1 20)
      (Date.mk 1 7 18) sampleCard (fun _ => sampleDraws) 64 200 (by decide) (by norm_num)
      (by norm_num) (by norm_num) (by decide)⟩

/-- Claim C6: every `buy_one_get_one` offer record has both
`discount_percent` and `discount_value` null; every `discount`-type offer
record has `discount_percent` non-null. -/
theorem offer_discount_shape_c6 (today : ℤ) (category merchant offer_type : String)
    (days_to_add back_off fwd_off : ℤ) (d : OfferDraws) :
    (offer_type = "buy_one_get_one" →
      (generate_offer today category merchant offer_type days_to_add back_off fwd_off
        d).discount_percent = none ∧
      (generate_offer today category merchant offer_type days_to_add back_off fwd_off
        d).discount_value = none) ∧
    (offer_type = "discount" →
      (generate_offer today category merchant offer_type days_to_add back_off fwd_off
        d).discount_percent.isSome = true) := by
  constructor
  · intro h
    subst h
    have hf : offer_discount_fields "buy_one_get_one" d = (none, none, none) := by
      unfold offer_discount_fields
      rw [if_neg (by decide), if_neg (by decide), if_neg (by decide), if_neg (by decide)]
    constructor
    · show (offer_discount_fields "buy_one_get_one" d).1 = none
      rw [hf]
    · show (offer_discount_fields "buy_one_get_one" d).2.1 = none
      rw [hf]
  · intro h
    subst h
    have hf : offer_discount_fields "discount" d =
        (some d.pct_main, none, if d.min_draw < 7/10 then some d.min_main else none) := by
      unfold offer_discount_fields
      rw [if_pos (Or.inl rfl)]
    show (offer_discount_fields "discount" d).1.isSome = true
    rw [hf]
    rfl

/-- Witness for C6: both offer types at concrete draws. -/
theorem offer_discount_shape_c6_witness :
    ((generate_offer 0 "Shopping" "Amazon" "buy_one_get_one" 10 10 20
        sampleOfferDraws).discount_percent = none ∧
      (generate_offer 0 "Shopping" "Amazon" "buy_one_get_one" 10 10 20
        sampleOfferDraws).discount_value = none) ∧
    (generate_offer 0 "Shopping" "Amazon" "discount" 10 10 20
      sampleOfferDraws).discount_percent.isSome = true :=
  ⟨(offer_discount_shape_c6 0 "Shopping" "Amazon" "buy_one_get_one" 10 10 20
      sampleOfferDraws).1 rfl,
    (offer_discount_shape_c6 0 "Shopping" "Amazon" "discount" 10 10 20
      sampleOfferDraws).2 rfl⟩

/-- Claim C7: for every generated offer record, `valid_from ≤ valid_until`,
for all outcomes of the random draws (`days_to_add ∈ [-15, 90]`, the
`[5, 30]` back-offset with the `-30`-day floor on `valid_from`, and the
`[15, 120]` forward offset on `valid_until`). -/
theorem offer_validity_c7 (today : ℤ) (category merchant offer_type : String)
    (days_to_add back_off fwd_off : ℤ) (d : OfferDraws)
    (h1 : -15 ≤ days_to_add) (h2 : days_to_add ≤ 90)
    (h3 : 5 ≤ back_off) (h4 : back_off ≤ 30)
    (h5 : 15 ≤ fwd_off) (h6 : fwd_off ≤ 120) :
    (generate_offer today category merchant offer_type days_to_add back_off fwd_off
      d).valid_from ≤
    (generate_offer today category merchant offer_type days_to_add back_off fwd_off
      d).valid_until := by
  show today + max (-30) (days_to_add - back_off) ≤ today + (days_to_add + fwd_off)
  have hm : max (-30 : ℤ) (days_to_add - back_off) ≤ days_to_add + fwd_off :=
    max_le (by omega) (by omega)
  omega

/-- Witness for C7 at concrete draw values. -/
theorem offer_validity_c7_witness :
    (-15 ≤ (10 : ℤ) ∧ (10 : ℤ) ≤ 90 ∧ 5 ≤ (10 : ℤ) ∧ (10 : ℤ) ≤ 30 ∧
      15 ≤ (20 : ℤ) ∧ (20 : ℤ) ≤ 120) ∧
    (generate_offer 0 "Shopping" "Amazon" "discount" 10 10 20 sampleOfferDraws).valid_from ≤
    (generate_offer 0 "Shopping" "Amazon" "discount" 10 10 20 sampleOfferDraws).valid_until :=
  ⟨⟨by norm_num, by norm_num, by norm_num, by norm_num, by norm_num, by norm_num⟩,
    offer_validity_c7 0 "Shopping" "Amazon" "discount" 10 10 20 sampleOfferDraws
      (by norm_num) (by norm_num) (by norm_num) (by norm_num) (by norm_num) (by norm_num)⟩

theorem contains_mem {l : List String} {a : String} (h : l.contains a = true) : a ∈ l := by
  simpa using h

theorem mem_contains {l : List String} {a : String} (h : a ∈ l) : l.contains a = true := by
  simpa using h

theorem raw_nonneg (primary secondary : List String) (dP dS dR : String → ℚ)
    (hd : WeightDrawsValid primary secondary dP dS dR) (c : String) :
    0 ≤ mcc_preference_raw primary secondary dP dS dR c := by
  obtain ⟨hP, hS, hR⟩ := hd
  unfold mcc_preference_raw
  split
  · next h => linarith [(hP c (contains_mem h)).1]
  · split
    · next h => linarith [(hS c (contains_mem h)).1]
    · exact (hR c).1

theorem raw_primary_ge (primary secondary : List String) (dP dS dR : String → ℚ)
    (hd : WeightDrawsValid primary secondary dP dS dR) (p : String) (hp : p ∈ primary) :
    1/10 ≤ mcc_preference_raw primary secondary dP dS dR p := by
  unfold mcc_preference_raw
  rw [if_pos (mem_contains hp)]
  exact (hd.1 p hp).1

theorem raw_nonprimary_le (primary secondary : List String) (dP dS dR : String → ℚ)
    (hd : WeightDrawsValid primary secondary dP dS dR) (c : String) (hc : c ∉ primary) :
    mcc_preference_raw primary secondary dP dS dR c ≤ 9/100 := by
  obtain ⟨hP, hS, hR⟩ := hd
  unfold mcc_preference_raw
  rw [if_neg (fun h => hc (contains_mem h))]
  split
  · next h => exact (hS c (contains_mem h)).2
  · linarith [(hR c).2]

theorem total_pos (primary secondary : List String) (dP dS dR : String → ℚ)
    (hsub : primary ⊆ mcc_codes) (hne : primary ≠ [])
    (hd : WeightDrawsValid primary secondary dP dS dR) :
    1/10 ≤ total_weight (mcc_preference_raw primary secondary dP dS dR) := by
  obtain ⟨p0, hp0⟩ := List.exists_mem_of_ne_nil primary hne
  have hp0c : p0 ∈ mcc_codes := hsub hp0
  have hmem : mcc_preference_raw primary secondary dP dS dR p0 ∈
      mcc_codes.map (mcc_preference_raw primary secondary dP dS dR) :=
    List.mem_map_of_mem _ hp0c
  have hall : ∀ x ∈ mcc_codes.map (mcc_preference_raw primary secondary dP dS dR), 0 ≤ x := by
    intro x hx
    obtain ⟨c, _, rfl⟩ := List.mem_map.mp hx
    exact raw_nonneg primary secondary dP dS dR hd c
  have hle := List.single_le_sum hall _ hmem
  have h10 := raw_primary_ge primary secondary dP dS dR hd p0 hp0
  unfold total_weight
  linarith

/-- Claim C8: in every generated spending profile, every catalog category
code has a non-negative (normalized) weight, and the normalized weight of every primary
category is strictly greater than that of every non-primary category
(primary pre-normalization draws lie in `[0.10, 0.25]`, secondary in
`[0.01, 0.09]`, remaining in `[0, 0.01]`). -/
theorem profile_weights_c8 (primary secondary : List String) (dP dS dR : String → ℚ)
    (hsub : primary ⊆ mcc_codes) (hne : primary ≠ [])
    (hd : WeightDrawsValid primary secondary dP dS dR) :
    (∀ c ∈ mcc_codes, 0 ≤ mcc_preference primary secondary dP dS dR c) ∧
    (∀ p ∈ primary, ∀ c ∈ mcc_codes, c ∉ primary →
      mcc_preference primary secondary dP dS dR c <
        mcc_preference primary secondary dP dS dR p) := by
  have hT := total_pos primary secondary dP dS dR hsub hne hd
  have hTpos : 0 < total_weight (mcc_preference_raw primary secondary dP dS dR) := by
    linarith
  constructor
  · intro c hc
    exact div_nonneg (raw_nonneg primary secondary dP dS dR hd c) (le_of_lt hTpos)
  · intro p hp c hc hcnp
    unfold mcc_preference
    rw [div_lt_div_iff_of_pos_right hTpos]
    have h1 := raw_nonprimary_le primary secondary dP dS dR hd c hcnp
    have h2 := raw_primary_ge primary secondary dP dS dR hd p hp
    linarith

/-- Witness for C8 at concrete primaries, secondaries and draws. -/
theorem profile_weights_c8_witness :
    ((["5411", "5542", "5812"] : List String) ⊆ mcc_codes ∧
      (["5411", "5542", "5812"] : List String) ≠ [] ∧
      WeightDrawsValid ["5411", "5542", "5812"] ["5814", "5912", "5311", "5661", "5699"]
        (fun _ => 1/10) (fun _ => 1/100) (fun _ => 1/200)) ∧
    ((∀ c ∈ mcc_codes, 0 ≤ mcc_preference ["5411", "5542", "5812"]
        ["5814", "5912", "5311", "5661", "5699"] (fun _ => 1/10) (fun _ => 1/100)
        (fun _ => 1/200) c) ∧
      (∀ p ∈ (["5411", "5542", "5812"] : List String), ∀ c ∈ mcc_codes,
        c ∉ (["5411", "5542", "5812"] : List String) →
        mcc_preference ["5411", "5542", "5812"] ["5814", "5912", "5311", "5661", "5699"]
          (fun _ => 1/10) (fun _ => 1/100) (fun _ => 1/200) c <
        mcc_preference ["5411", "5542", "5812"] ["5814", "5912", "5311", "5661", "5699"]
          (fun _ => 1/10) (fun _ => 1/100) (fun _ => 1/200) p)) :=
  ⟨⟨by decide, by decide,
      ⟨fun c _ => ⟨by norm_num, by norm_num⟩, fun c _ => ⟨by norm_num, by norm_num⟩,
        fun c => ⟨by norm_num, by norm_num⟩⟩⟩,
    profile_weights_c8 ["5411", "5542", "5812"] ["5814", "5912", "5311", "5661", "5699"]
      (fun _ => 1/10) (fun _ => 1/100) (fun _ => 1/200) (by decide) (by decide)
      ⟨fun c _ => ⟨by norm_num, by norm_num⟩, fun c _ => ⟨by norm_num, by norm_num⟩,
        fun c => ⟨by norm_num, by norm_num⟩⟩⟩

theorem sum_map_div (l : List String) (f : String → ℚ) (T : ℚ) :
    (l.map (fun c => f c / T)).sum = (l.map f).sum / T := by
  induction l with
  | nil => simp
  | cons a l ih => simp [ih, add_div]

/-- Claim C9: in every generated spending profile the normalized category
weights sum to 1 (so in particular within the `1e-9` tolerance), and
`weekday_weight + weekend_weight = 1` exactly. -/
theorem profile_sums_c9 (primary secondary : List String) (dP dS dR : String → ℚ)
    (weekday_draw : ℚ) (hsub : primary ⊆ mcc_codes) (hne : primary ≠ [])
    (hd : WeightDrawsValid primary secondary dP dS dR) :
    |(mcc_codes.map (mcc_preference primary secondary dP dS dR)).sum - 1| ≤
      1/1000000000 ∧
    weekday_draw + weekend_weight weekday_draw = 1 := by
  have hT := total_pos primary secondary dP dS dR hsub hne hd
  have hTpos : 0 < total_weight (mcc_preference_raw primary secondary dP dS dR) := by
    linarith
  have hsum : (mcc_codes.map (mcc_preference primary secondary dP dS dR)).sum = 1 := by
    unfold mcc_preference
    rw [sum_map_div]
    exact div_self (ne_of_gt hTpos)
  constructor
  · rw [hsum]
    norm_num
  · unfold weekend_weight
    ring

/-- Witness for C9 at concrete primaries, secondaries and draws. -/
theorem profile_sums_c9_witness :
    ((["5411", "5542", "5812"] : List String) ⊆ mcc_codes ∧
      (["5411", "5542", "5812"] : List String) ≠ [] ∧
      WeightDrawsValid ["5411", "5542", "5812"] ["5814", "5912", "5311", "5661", "5699"]
        (fun _ => 1/10) (fun _ => 1/100) (fun _ => 1/200)) ∧
    (|(mcc_codes.map (mcc_preference ["5411", "5542", "5812"]
        ["5814", "5912", "5311", "5661", "5699"] (fun _ => 1/10) (fun _ => 1/100)
        (fun _ => 1/200))).sum - 1| ≤ 1/1000000000 ∧
      (3 : ℚ)/5 + weekend_weight (3/5) = 1) :=
  ⟨⟨by decide, by decide,
      ⟨fun c _ => ⟨by norm_num, by norm_num⟩, fun c _ => ⟨by norm_num, by norm_num⟩,
        fun c => ⟨by norm_num, by norm_num⟩⟩⟩,
    profile_sums_c9 ["5411", "5542", "5812"] ["5814", "5912", "5311", "5661", "5699"]
      (fun _ => 1/10) (fun _ => 1/100) (fun _ => 1/200) (3/5) (by decide) (by decide)
      ⟨fun c _ => ⟨by norm_num, by norm_num⟩, fun c _ => ⟨by norm_num, by norm_num⟩,
        fun c => ⟨by norm_num, by norm_num⟩⟩⟩
